import Mathlib

/-!
Verification of the part-logic search orchestration pipeline.

This file is a shallow embedding, in Lean 4, of the pure core of the
`backend/app` Python package: query analysis (`utils/query_analysis.py`,
`utils/part_numbers.py`), interchange merging (`utils/interchange.py`),
deduplication (`utils/deduplication.py`), grouping (`utils/grouping.py`),
relevance scoring (`utils/ranking.py`) and the per-connector runner and
result aggregation of `api/routes/search.py`.

Modelling conventions, used throughout:
* Python `str` is Lean `String` (character lists `List Char` internally);
  the queries and data of interest are ASCII, so `Char.toUpper`/`Char.isAlpha`
  faithfully model `str.upper()`/`str.isalpha()` on the inputs considered.
* Python `float` is modelled as the exact rational `ℚ`; `round(x, n)` is
  modelled as decimal rounding half-to-even (Python's rounding rule).
* Python truthiness of optional strings (`if s:`) is `pyTruthyStr`:
  `None` and `""` are falsy.
* Python `set`s that are only tested for membership or sorted at the end are
  modelled as duplicate-free lists; `sorted` is modelled by a stable
  insertion sort (Python's `list.sort`/`sorted` is a stable sort, and any
  two stable sorts agree extensionally).
* The regular expressions of the source are embedded via a small
  backtracking matcher (`reM`) with Python `re` semantics for the constructs
  used: leftmost match, ordered alternation, greedy quantifiers,
  lookahead `(?=..)` and word boundary `\b`; `findall` scans left to right,
  non-overlapping.
-/

namespace PartLogic

/-! ## Character and string primitives -/

/-- Python `\s` / `str.strip()` whitespace (the ASCII whitespace set). -/
def isWs (c : Char) : Bool :=
  c == ' ' || c == '\t' || c == '\n' || c == '\r' || c == '\x0b' || c == '\x0c'

/-- Regex `\w` word characters (ASCII). -/
def isWordChar (c : Char) : Bool :=
  c.isAlpha || c.isDigit || c == '_'

def toL (s : String) : List Char := s.data

def pyUpperL (s : List Char) : List Char := s.map Char.toUpper

/-- `str.upper()` (ASCII). -/
def pyUpper (s : String) : String := String.mk (pyUpperL s.data)

/-- `str.strip()` : drop leading and trailing whitespace. -/
def pyStripL (s : List Char) : List Char :=
  ((s.dropWhile isWs).reverse.dropWhile isWs).reverse

/-- `str.strip(chars)` : drop leading and trailing characters from `cs`. -/
def pyStripCharsL (s : List Char) (cs : List Char) : List Char :=
  ((s.dropWhile (cs.contains ·)).reverse.dropWhile (cs.contains ·)).reverse

/-- Worker for `str.split()` (split on whitespace runs, no empty words). -/
def splitWsGo : List Char → List Char → List (List Char)
  | [], acc => if acc.isEmpty then [] else [acc.reverse]
  | c :: rest, acc =>
    if isWs c then
      if acc.isEmpty then splitWsGo rest [] else acc.reverse :: splitWsGo rest []
    else splitWsGo rest (c :: acc)

/-- `str.split()` with no argument: split on whitespace, dropping empties. -/
def pySplit (s : List Char) : List (List Char) := splitWsGo s []

/-- `" ".flatten(parts)`. -/
def joinSpace (parts : List (List Char)) : List Char :=
  List.intercalate [' '] parts

/-- `a.startswith(b)` on character lists. -/
def startsWithL : List Char → List Char → Bool
  | _, [] => true
  | [], _ :: _ => false
  | c :: cs, p :: ps => c == p && startsWithL cs ps

/-- Python substring test `pat in s`. -/
def containsSub : List Char → List Char → Bool
  | [], pat => pat.isEmpty
  | s@(_ :: rest), pat => startsWithL s pat || containsSub rest pat

/-- `s.find(pat)` returning `none` for Python's `-1`. -/
def findIdx : List Char → List Char → Option Nat
  | [], pat => if pat.isEmpty then some 0 else none
  | s@(_ :: rest), pat =>
    if startsWithL s pat then some 0 else (findIdx rest pat).map (· + 1)

/-- Fuel-driven worker for `removeAll`; the fuel bounds the number of
characters still to be inspected, so `s.length` is always enough. -/
def removeAllGo : Nat → List Char → List Char → List Char
  | 0, s, _ => s
  | _ + 1, [], _ => []
  | fuel + 1, c :: rest, pat =>
    if startsWithL (c :: rest) pat then
      removeAllGo fuel ((c :: rest).drop pat.length) pat
    else c :: removeAllGo fuel rest pat

/-- `s.replace(pat, "")`: remove every (non-overlapping, leftmost-first)
occurrence of `pat`. An identity for empty `pat`
(`s.replace("", "")` is also the identity in Python). -/
def removeAll (s pat : List Char) : List Char :=
  if pat.isEmpty then s else removeAllGo s.length s pat

/-- `str.title()`: letters are words; the first letter of each word is
uppercased, the rest lowercased; non-letters pass through. -/
def pyTitleGo : Bool → List Char → List Char
  | _, [] => []
  | prevAlpha, c :: rest =>
    (if c.isAlpha then (if prevAlpha then c.toLower else c.toUpper) else c)
      :: pyTitleGo c.isAlpha rest

def pyTitleL (s : List Char) : List Char := pyTitleGo false s

/-- Python truthiness of an optional string: `None` and `""` are falsy. -/
def pyTruthyStr : Option String → Bool
  | none => false
  | some s => !s.isEmpty

/-- Python string comparison (`<` on code points, lexicographic). -/
def strLtL : List Char → List Char → Bool
  | [], [] => false
  | [], _ :: _ => true
  | _ :: _, [] => false
  | a :: as1, b :: bs1 =>
    if a.val < b.val then true
    else if b.val < a.val then false
    else strLtL as1 bs1

def strLeS (a b : String) : Prop := ¬ strLtL b.data a.data

instance : DecidableRel strLeS := fun a b => by unfold strLeS; infer_instance

/-! ## A small backtracking regex matcher (Python `re` semantics)

Supports exactly the constructs used by the source's patterns: character
classes, literals, concatenation, ordered alternation, greedy `*`, `?` and
counted repetition, lookahead `(?=..)` and word boundary `\b`. Matching is
continuation-passing with explicit fuel (every call strictly decreases it);
the fuel supplied by the wrappers below is far above the worst-case depth
for the patterns at hand, so it never runs out on them. -/

inductive RE where
  | eps
  | cls (p : Char → Bool)
  | lit (cs : List Char)
  | cat (r1 r2 : RE)
  | alt2 (r1 r2 : RE)
  | star (r : RE)
  | opt (r : RE)
  | rep (lo hi : Nat) (r : RE)
  | look (r : RE)
  | wb

/-- Match a literal, tracking the previous character for `\b`. -/
def litM {σ : Type} : List Char → Option Char → List Char →
    (Option Char → List Char → Option σ) → Option σ
  | [], prev, s, k => k prev s
  | _ :: _, _, [], _ => none
  | p :: ps, _, c :: rest, k => if c == p then litM ps (some c) rest k else none

/-- The matcher. `k` is the continuation receiving the previous character
and the remaining input; the result is the continuation's result of the
first (in Python's backtracking order) overall-successful parse. -/
def reM {σ : Type} : Nat → RE → Option Char → List Char →
    (Option Char → List Char → Option σ) → Option σ
  | 0, _, _, _, _ => none
  | Nat.succ fuel, re, prev, s, k =>
    match re with
    | .eps => k prev s
    | .cls p =>
      match s with
      | [] => none
      | c :: rest => if p c then k (some c) rest else none
    | .lit cs => litM cs prev s k
    | .cat r1 r2 => reM fuel r1 prev s (fun p2 s2 => reM fuel r2 p2 s2 k)
    | .alt2 r1 r2 =>
      match reM fuel r1 prev s k with
      | some res => some res
      | none => reM fuel r2 prev s k
    | .star r =>
      match reM fuel r prev s (fun p2 s2 =>
          if s2.length < s.length then reM fuel (.star r) p2 s2 k else k p2 s2) with
      | some res => some res
      | none => k prev s
    | .opt r =>
      match reM fuel r prev s k with
      | some res => some res
      | none => k prev s
    | .rep lo hi r =>
      match lo with
      | 0 =>
        match hi with
        | 0 => k prev s
        | Nat.succ h =>
          match reM fuel r prev s (fun p2 s2 =>
              if s2.length < s.length then reM fuel (.rep 0 h r) p2 s2 k
              else k p2 s2) with
          | some res => some res
          | none => k prev s
      | Nat.succ l =>
        reM fuel r prev s (fun p2 s2 => reM fuel (.rep l (hi - 1) r) p2 s2 k)
    | .look r =>
      match reM fuel r prev s (fun _ s2 => some s2) with
      | some _ => k prev s
      | none => none
    | .wb =>
      let w1 := match prev with | some c => isWordChar c | none => false
      let w2 := match s with | c :: _ => isWordChar c | [] => false
      if w1 != w2 then k prev s else none

/-- Fuel that is ample for the source's patterns on input `s`. -/
def reFuel (s : List Char) : Nat := (s.length + 2) * 200

/-- Try to match `r` at the start of `s` (previous character `prev`);
returns the remaining suffix of the first successful parse. -/
def reRun (r : RE) (prev : Option Char) (s : List Char) : Option (List Char) :=
  reM (reFuel s) r prev s (fun _ s2 => some s2)

/-- `re.findall` worker: scan left to right, non-overlapping matches. -/
def scanAll : Nat → RE → Option Char → List Char → List (List Char)
  | 0, _, _, _ => []
  | Nat.succ fuel, r, prev, s =>
    match reRun r prev s with
    | some rest =>
      let n := s.length - rest.length
      if n = 0 then
        match s with
        | [] => []
        | c :: tail => scanAll fuel r (some c) tail
      else
        let m := s.take n
        m :: scanAll fuel r m.getLast? rest
    | none =>
      match s with
      | [] => []
      | c :: tail => scanAll fuel r (some c) tail

/-- `re.findall(r, s)` (full matches). -/
def reFindAll (r : RE) (s : List Char) : List (List Char) :=
  scanAll (s.length + 1) r none s

/-- Run `cat preR grpR` at one position, capturing the part matched by the
trailing group `grpR`: returns `(capture, rest)`. Backtracking across the
boundary between the two parts is preserved by the continuation. -/
def reRunCap (preR grpR : RE) (prev : Option Char) (s : List Char) :
    Option (List Char × List Char) :=
  reM (reFuel s) preR prev s (fun p2 s2 =>
    reM (reFuel s) grpR p2 s2 (fun _ s3 =>
      some (s2.take (s2.length - s3.length), s3)))

/-- `re.findall` for a pattern `preR(grpR)` whose single group is its final
component: returns the list of captured groups. -/
def scanAllCap : Nat → RE → RE → Option Char → List Char → List (List Char)
  | 0, _, _, _, _ => []
  | Nat.succ fuel, preR, grpR, prev, s =>
    match reRunCap preR grpR prev s with
    | some (cap, rest) =>
      let n := s.length - rest.length
      if n = 0 then
        match s with
        | [] => []
        | c :: tail => scanAllCap fuel preR grpR (some c) tail
      else
        cap :: scanAllCap fuel preR grpR (s.take n).getLast? rest
    | none =>
      match s with
      | [] => []
      | c :: tail => scanAllCap fuel preR grpR (some c) tail

def reFindAllCap (preR grpR : RE) (s : List Char) : List (List Char) :=
  scanAllCap (s.length + 1) preR grpR none s

/-- `re.search`: leftmost match; returns `(match, rest-after-match)`. -/
def reSearchGo : Nat → RE → Option Char → List Char → Option (List Char × List Char)
  | 0, _, _, _ => none
  | Nat.succ fuel, r, prev, s =>
    match reRun r prev s with
    | some rest => some (s.take (s.length - rest.length), rest)
    | none =>
      match s with
      | [] => none
      | c :: tail => reSearchGo fuel r (some c) tail

def reSearch (r : RE) (s : List Char) : Option (List Char × List Char) :=
  reSearchGo (s.length + 1) r none s

/-! ## `utils/part_numbers.py` -/

/-- Class `[A-Z0-9]`. -/
def clsAl (c : Char) : Bool := c.isUpper || c.isDigit

/-- Class `[A-Z0-9-]`. -/
def clsAlDash (c : Char) : Bool := c.isUpper || c.isDigit || c == '-'

/-- `\b[A-Z0-9]{2,}-[A-Z0-9-]{1,}\b` (pattern 1 of `extract_part_numbers`). -/
def reP1 : RE :=
  .cat .wb (.cat (.cls clsAl) (.cat (.cls clsAl) (.cat (.star (.cls clsAl))
    (.cat (.lit ['-']) (.cat (.cls clsAlDash) (.cat (.star (.cls clsAlDash)) .wb))))))

/-- `\b[A-Z0-9]{2,}\.[A-Z0-9]{1,}\b` (pattern 2). -/
def reP2 : RE :=
  .cat .wb (.cat (.cls clsAl) (.cat (.cls clsAl) (.cat (.star (.cls clsAl))
    (.cat (.lit ['.']) (.cat (.cls clsAl) (.cat (.star (.cls clsAl)) .wb))))))

/-- `\b(?=[A-Z]*[0-9])(?=[0-9]*[A-Z])[A-Z0-9]{5,15}\b` (pattern 3). -/
def reP3 : RE :=
  .cat .wb (.cat (.look (.cat (.star (.cls Char.isUpper)) (.cls Char.isDigit)))
    (.cat (.look (.cat (.star (.cls Char.isDigit)) (.cls Char.isUpper)))
      (.cat (.rep 5 15 (.cls clsAl)) .wb)))

/-- `(?:OEM|PART\s*#?|PN|P/N)\s*` — the prefix of OEM pattern 1; the group
`([A-Z0-9-]{3,15})` follows it. -/
def reOemPre : RE :=
  .cat (.alt2 (.lit (toL "OEM"))
    (.alt2 (.cat (.lit (toL "PART")) (.cat (.star (.cls isWs)) (.opt (.lit ['#']))))
      (.alt2 (.lit (toL "PN")) (.lit (toL "P/N")))))
    (.star (.cls isWs))

/-- `([A-Z0-9-]{3,15})` — the captured group of both OEM patterns. -/
def reOemGrp : RE := .rep 3 15 (.cls clsAlDash)

/-- `#\s*` — the prefix of OEM pattern 2. -/
def reHashPre : RE := .cat (.lit ['#']) (.star (.cls isWs))

/-- Insert into a duplicate-free list (models Python `set.add`; the order is
irrelevant because every user sorts afterwards). -/
def setInsertL (s : List (List Char)) (x : List Char) : List (List Char) :=
  if s.contains x then s else s ++ [x]

def setInsertAllL (s : List (List Char)) (xs : List (List Char)) : List (List Char) :=
  xs.foldl setInsertL s

/-- `normalize_query`: uppercase, collapse whitespace, strip. -/
def normalize_query (query : String) : String :=
  if query.data.isEmpty then ""
  else String.mk (pyStripL (joinSpace (pySplit (pyUpperL query.data))))

/-- `extract_part_numbers`. -/
def extract_part_numbers (text : String) : List String :=
  if text.data.isEmpty then []
  else
    let tu := pyUpperL text.data
    let rawMatches :=
      reFindAll reP1 tu ++ reFindAll reP2 tu ++ reFindAll reP3 tu
        ++ reFindAllCap reOemPre reOemGrp tu ++ reFindAllCap reHashPre reOemGrp tu
    let normalized := rawMatches.map (fun m => (pyStripL m).filter (fun c => c != ' '))
    let kept := normalized.filter (fun m =>
      let core := m.filter (fun c => c != '-' && c != '.')
      3 ≤ core.length && core.length ≤ 20)
    let uniq := setInsertAllL [] kept
    (uniq.map String.mk).insertionSort strLeS

/-! ## `utils/query_analysis.py` -/

inductive QueryType where
  | part_number
  | vehicle_part
  | keywords
deriving DecidableEq, Repr

/-- `QueryType.value` (the enum's string payload). -/
def QueryType.value : QueryType → String
  | .part_number => "part_number"
  | .vehicle_part => "vehicle_part"
  | .keywords => "keywords"

structure QueryAnalysis where
  query_type : QueryType
  original_query : String
  part_numbers : List String := []
  vehicle_hint : Option String := none
  part_description : Option String := none
  cross_references : List String := []
  brands_found : List String := []
  enriched_query : Option String := none
deriving DecidableEq, Repr

/-- `_MAKES` (written in the source's order; it is a Python `set`, so only
membership and a length-sorted traversal are ever used). -/
def MAKES : List String :=
  ["ACURA", "ALFA ROMEO", "ASTON MARTIN", "AUDI", "BENTLEY", "BMW", "BUICK",
   "CADILLAC", "CHEVROLET", "CHEVY", "CHRYSLER", "CITROEN", "DACIA", "DAEWOO",
   "DAIHATSU", "DATSUN", "DODGE", "EAGLE", "FERRARI", "FIAT", "FORD",
   "GENESIS", "GEO", "GMC", "HONDA", "HUMMER", "HYUNDAI", "INFINITI",
   "ISUZU", "JAGUAR", "JEEP", "KIA", "LAMBORGHINI", "LANCIA", "LAND ROVER",
   "LEXUS", "LINCOLN", "LOTUS", "MASERATI", "MAZDA", "MCLAREN",
   "MERCEDES", "MERCEDES-BENZ", "MERCURY", "MINI", "MITSUBISHI", "NISSAN",
   "OLDSMOBILE", "OPEL", "PEUGEOT", "PLYMOUTH", "PONTIAC", "PORSCHE",
   "RAM", "RENAULT", "ROLLS-ROYCE", "ROVER", "SAAB", "SATURN", "SCION",
   "SEAT", "SKODA", "SMART", "SUBARU", "SUZUKI", "TESLA", "TOYOTA",
   "TRIUMPH", "VAUXHALL", "VOLKSWAGEN", "VW", "VOLVO"]

/-- `_PART_KEYWORDS`. -/
def PART_KEYWORDS : List String :=
  ["BRAKE", "BRAKES", "PAD", "PADS", "ROTOR", "ROTORS", "CALIPER",
   "ENGINE", "MOUNT", "MOUNTS", "MOTOR", "TRANSMISSION", "CLUTCH",
   "SUSPENSION", "STRUT", "STRUTS", "SHOCK", "SHOCKS", "SPRING", "SPRINGS",
   "FILTER", "OIL", "AIR", "FUEL", "CABIN", "PUMP", "WATER",
   "ALTERNATOR", "STARTER", "BATTERY", "IGNITION", "SPARK", "PLUG", "PLUGS",
   "BELT", "BELTS", "HOSE", "HOSES", "GASKET", "GASKETS", "SEAL", "SEALS",
   "BEARING", "BEARINGS", "BUSHING", "BUSHINGS", "JOINT", "JOINTS",
   "SENSOR", "SWITCH", "VALVE", "THERMOSTAT", "RADIATOR", "CONDENSER",
   "HEADLIGHT", "TAILLIGHT", "MIRROR", "WIPER", "WIPERS",
   "WHEEL", "TIRE", "TIRES", "HUB", "AXLE", "CV", "DRIVESHAFT",
   "EXHAUST", "MUFFLER", "CATALYTIC", "CONVERTER", "MANIFOLD",
   "DOOR", "WINDOW", "FENDER", "BUMPER", "HOOD", "TRUNK", "LATCH",
   "CONTROL", "ARM", "ARMS", "TIE", "ROD", "LINK", "SWAY", "BAR",
   "CERAMIC", "ORGANIC", "METALLIC", "SEMI", "FRONT", "REAR", "LEFT", "RIGHT",
   "UPPER", "LOWER", "INNER", "OUTER", "SET", "KIT", "PAIR", "ASSEMBLY"]

/-- The noise-word set of `_is_part_number_query`. -/
def NOISE_WORDS : List String :=
  ["OR", "AND", "FOR", "THE", "A", "AN", "OEM", "PART", "PN", "P/N", "#", "NO", "NUMBER"]

/-- `sorted(_MAKES, key=len, reverse=True)`: longest first, stably. Python's
tie order (the set's iteration order) is unspecified; ties here keep the
written order, which is immaterial to the properties proved below. -/
def makesByLenDesc : List String :=
  MAKES.insertionSort (fun a b => b.length ≤ a.length)

/-- `\b(19[6-9]\d|20[0-3]\d)\b` (`_YEAR_PATTERN`). -/
def reYear : RE :=
  .cat .wb (.cat
    (.alt2 (.cat (.lit (toL "19")) (.cat (.cls (fun c => '6' ≤ c && c ≤ '9')) (.cls Char.isDigit)))
           (.cat (.lit (toL "20")) (.cat (.cls (fun c => '0' ≤ c && c ≤ '3')) (.cls Char.isDigit))))
    .wb)

/-- The model-word consumption loop: take words until a part keyword. -/
def takeModelWords (ws : List (List Char)) : List (List Char) :=
  ws.takeWhile (fun w => !(PART_KEYWORDS.contains (String.mk w)))

/-- The year branch's make loop: first make (longest first) that
`after_year` starts with, with the model words that follow. -/
def yearMakeLoop (year afterYear : List Char) : List String → Option String
  | [] => none
  | mk :: rest =>
    if startsWithL afterYear (toL mk) then
      let restChars := pyStripL (afterYear.drop (toL mk).length)
      let modelStr := joinSpace (takeModelWords (pySplit restChars))
      let vehicle := year ++ [' '] ++ toL mk
        ++ (if modelStr.isEmpty then [] else [' '] ++ modelStr)
      some (String.mk (pyTitleL vehicle))
    else yearMakeLoop year afterYear rest

/-- The no-year make loop: first make (longest first) whose first occurrence
in the query sits at an alphabetic word boundary. Only the first occurrence
is checked, as in the source (`find` + `continue`). -/
def bareMakeLoop (qU : List Char) : List String → Option String
  | [] => none
  | mk :: rest =>
    match findIdx qU (toL mk) with
    | none => bareMakeLoop qU rest
    | some idx =>
      let e := idx + (toL mk).length
      if idx > 0 && (qU.getD (idx - 1) ' ').isAlpha then bareMakeLoop qU rest
      else if e < qU.length && (qU.getD e ' ').isAlpha then bareMakeLoop qU rest
      else
        let after := pyStripL (qU.drop e)
        let modelStr := joinSpace (takeModelWords (pySplit after))
        if modelStr.isEmpty then some (String.mk (pyTitleL (toL mk)))
        else some (String.mk (pyTitleL (toL mk ++ [' '] ++ modelStr)))

/-- `_detect_vehicle`. -/
def detect_vehicle (query : String) : Option String :=
  let qU := pyUpperL query.data
  let viaYear :=
    match reSearch reYear qU with
    | some (year, rest) => yearMakeLoop year (pyStripL rest) makesByLenDesc
    | none => none
  match viaYear with
  | some v => some v
  | none => bareMakeLoop qU makesByLenDesc

/-- The `remaining` string of `_is_part_number_query`: the uppercased query
with every extracted part number removed, then stripped of whitespace and
of the separators `-./,`. -/
def remainingAfterRemoval (query : String) (extracted : List String) : List Char :=
  let rem0 := extracted.foldl (fun acc pn => removeAll acc (toL pn)) (pyUpperL query.data)
  pyStripL (pyStripCharsL (pyStripL rem0) (toL "-./,"))

/-- The meaningful residue: remaining words that are neither noise words nor
single characters. -/
def meaningfulRemaining (query : String) (extracted : List String) : List (List Char) :=
  (pySplit (remainingAfterRemoval query extracted)).filter
    (fun w => !(NOISE_WORDS.contains (String.mk w)) && w.length > 1)

/-- `_PURE_PART_NUMBER.match(s)`: a first character in `[A-Z0-9]` followed by
characters that are alphanumeric, dot, dash, slash or whitespace, to the end of
the string. (The inputs it is applied to are stripped, so the trailing-newline
allowance of the regex anchor is moot.) -/
def purePartNumberMatch (s : List Char) : Bool :=
  match s with
  | [] => false
  | c :: rest => clsAl c && rest.all (fun d => clsAl d || d == '.' || d == '-' || d == '/' || isWs d)

/-- Does every word of the uppercased query belong to the part-keyword or
make sets? -/
def allKeywordOrMake (query : String) : Bool :=
  (pySplit (pyUpperL query.data)).all
    (fun w => PART_KEYWORDS.contains (String.mk w) || MAKES.contains (String.mk w))

/-- `_is_part_number_query`. -/
def is_part_number_query (query : String) (extracted : List String) : Bool :=
  if extracted.isEmpty then false
  else if (remainingAfterRemoval query extracted).isEmpty then true
  else if (meaningfulRemaining query extracted).isEmpty then true
  else if purePartNumberMatch (pyStripL (pyUpperL query.data)) then
    if allKeywordOrMake query then false else true
  else false

/-- `normalized = query.upper().strip()` (first line of `analyze_query`). -/
def normalizedQuery (query : String) : String :=
  String.mk (pyStripL (pyUpperL query.data))

/-- `analyze_query`. -/
def analyze_query (query : String) : QueryAnalysis :=
  let normalized := normalizedQuery query
  let extracted := extract_part_numbers normalized
  let vehicle_hint := detect_vehicle normalized
  if is_part_number_query normalized extracted then
    { query_type := .part_number, original_query := query,
      part_numbers := extracted, vehicle_hint := vehicle_hint }
  else if vehicle_hint.isSome then
    { query_type := .vehicle_part, original_query := query,
      part_numbers := extracted, vehicle_hint := vehicle_hint }
  else
    { query_type := .keywords, original_query := query,
      part_numbers := extracted, vehicle_hint := vehicle_hint }

/-! ## `utils/interchange.py` (provider-result merging) -/

structure CrossRefResult where
  source : String
  part_numbers : List String := []
  brands : List (String × List String) := []
  vehicle_hint : Option String := none
  part_description : Option String := none
deriving DecidableEq, Repr

structure InterchangeGroup where
  primary_part_number : String
  interchange_numbers : List String := []
  brands : List (String × List String) := []
  vehicle_fitment : Option String := none
  part_description : Option String := none
  confidence : ℚ := 0
  sources_consulted : List String := []
deriving DecidableEq, Repr

/-- `set.add` on a duplicate-free list of strings. -/
def setInsertS (s : List String) (x : String) : List String :=
  if s.contains x then s else s ++ [x]

/-- `brands_map.setdefault(brand, set()).update(pns)` on an association list
whose values are duplicate-free lists. -/
def brandsUpdate : List (String × List String) → String → List String →
    List (String × List String)
  | [], b, pns => [(b, pns.foldl setInsertS [])]
  | (b2, v) :: rest, b, pns =>
    if b2 = b then (b2, pns.foldl setInsertS v) :: rest
    else (b2, v) :: brandsUpdate rest b pns

/-- Python `sorted` on strings (code-point lexicographic, stable). -/
def sortStrings (l : List String) : List String := l.insertionSort strLeS

/-- Key order for `sorted(brands_map.items())` (keys are unique, so the
tuple comparison reduces to the key comparison). -/
def keyLe (p q : String × List String) : Prop := strLeS p.1 q.1

instance : DecidableRel keyLe := fun p q => by unfold keyLe; infer_instance

/-- The loop state of `_merge_cross_ref_results`. -/
structure MergeAcc where
  sources : List String := []
  pns : List String := []
  brandsMap : List (String × List String) := []
  vh : Option String := none
  pd : Option String := none

/-- One iteration of the `for result in results` loop. -/
def mergeStep (primaryU : String) (acc : MergeAcc) (r : CrossRefResult) : MergeAcc :=
  { sources := acc.sources ++ [r.source],
    pns := r.part_numbers.foldl
      (fun s pn => if pyUpper pn = primaryU then s else setInsertS s pn) acc.pns,
    brandsMap := r.brands.foldl (fun m p => brandsUpdate m p.1 p.2) acc.brandsMap,
    vh := if !(pyTruthyStr acc.vh) && pyTruthyStr r.vehicle_hint then r.vehicle_hint else acc.vh,
    pd := if !(pyTruthyStr acc.pd) && pyTruthyStr r.part_description then r.part_description
          else acc.pd }

/-- `sources_with_data`: providers whose result has part numbers or brands. -/
def sourcesWithData (results : List CrossRefResult) : Nat :=
  results.countP (fun r => !r.part_numbers.isEmpty || !r.brands.isEmpty)

/-- The confidence policy constant of `_merge_cross_ref_results`. -/
def confidenceStep (n : Nat) : ℚ :=
  if 3 ≤ n then 9/10 else if n = 2 then 7/10 else if n = 1 then 1/2 else 0

/-- `_merge_cross_ref_results`. -/
def merge_cross_ref_results (primary_pn : String) (results : List CrossRefResult) :
    InterchangeGroup :=
  let primaryU := pyUpper primary_pn
  let acc := results.foldl (mergeStep primaryU) {}
  { primary_part_number := primary_pn,
    interchange_numbers := sortStrings acc.pns,
    brands := (acc.brandsMap.insertionSort keyLe).map (fun p => (p.1, sortStrings p.2)),
    vehicle_fitment := acc.vh,
    part_description := acc.pd,
    confidence := confidenceStep (sourcesWithData results),
    sources_consulted := acc.sources }

/-! ## `schemas/search.py` (the data shapes used by the pipeline) -/

structure MarketListing where
  source : String
  title : String
  price : ℚ
  currency : String := "USD"
  condition : Option String := none
  url : String
  part_numbers : List String := []
  vendor : Option String := none
  image_url : Option String := none
  brand : Option String := none
  shipping_cost : Option ℚ := none
  listing_type : Option String := none
  matched_interchange : Option String := none
  fitment_status : Option String := none
deriving DecidableEq, Repr

structure SalvageHit where
  source : String := "row52"
  yard_name : String
  yard_location : String
  vehicle : String
  url : String
  last_seen : Option String := none
  part_description : Option String := none
deriving DecidableEq, Repr

structure ExternalLink where
  label : String
  url : String
  source : String := "carpart"
  category : Option String := none
deriving DecidableEq, Repr

structure SourceStatus where
  source : String
  status : String
  details : Option String := none
  result_count : Nat := 0
deriving DecidableEq, Repr

/-! ## `utils/deduplication.py` -/

/-- The loop of `deduplicate_listings`, with the `seen_urls` set explicit. -/
def dedupListingsGo (seen : List String) : List MarketListing → List MarketListing
  | [] => []
  | l :: rest =>
    if l.url ∈ seen then dedupListingsGo seen rest
    else l :: dedupListingsGo (l.url :: seen) rest

/-- `deduplicate_listings`: keep the first listing for each URL. -/
def deduplicate_listings (listings : List MarketListing) : List MarketListing :=
  dedupListingsGo [] listings

/-- The loop of `deduplicate_links`, keyed by the `(source, url)` pair. -/
def dedupLinksGo (seen : List (String × String)) : List ExternalLink → List ExternalLink
  | [] => []
  | l :: rest =>
    if (l.source, l.url) ∈ seen then dedupLinksGo seen rest
    else l :: dedupLinksGo ((l.source, l.url) :: seen) rest

/-- `deduplicate_links`. -/
def deduplicate_links (links : List ExternalLink) : List ExternalLink :=
  dedupLinksGo [] links

/-! ## Rounding (Python `round(x, ndigits)` on our rational model) -/

/-- Round to the nearest integer, ties to the even integer. -/
def roundHalfEven (x : ℚ) : ℤ :=
  let f := Int.floor x
  let r := x - f
  if r < 1/2 then f
  else if 1/2 < r then f + 1
  else if f % 2 = 0 then f else f + 1

/-- `round(x, 2)`. -/
def round2 (x : ℚ) : ℚ := (roundHalfEven (x * 100) : ℚ) / 100

/-- `round(x, 3)`. -/
def round3 (x : ℚ) : ℚ := (roundHalfEven (x * 1000) : ℚ) / 1000

/-! ## `utils/grouping.py`

`grouping.py` (and `ranking.py`) import `get_brand_profile` from
`app.data.brand_knowledge`, a static table that is not part of the sources
under verification; the embedding is therefore parameterised by the lookup
function `gbp`, and every theorem below is proved for an arbitrary lookup. -/

structure BrandProfile where
  tier : String
  quality_score : ℚ
deriving DecidableEq, Repr

/-- The type of the `get_brand_profile` lookup. -/
def GBP : Type := String → Option BrandProfile

/-- `get_brand_profile(listing.brand) if listing.brand else None`. -/
def brandProfileOf (gbp : GBP) (brand : Option String) : Option BrandProfile :=
  if pyTruthyStr brand then gbp (brand.getD "") else none

structure Offer where
  source : String
  price : ℚ
  shipping_cost : Option ℚ := none
  total_cost : ℚ
  condition : Option String := none
  url : String
  title : String
  image_url : Option String := none
  value_score : ℚ := 0
deriving DecidableEq, Repr

structure PriceRange where
  low : ℚ
  high : ℚ
deriving DecidableEq, Repr

structure ListingGroup where
  brand : String
  part_number : String := ""
  tier : String := "unknown"
  quality_score : ℚ := 0
  offers : List Offer := []
  best_price : ℚ := 0
  price_range : PriceRange := ⟨0, 0⟩
  offer_count : Nat := 0
  best_value_score : ℚ := 0
deriving DecidableEq, Repr

/-- `_normalize_key`: drop whitespace, dashes and dots, uppercase. -/
def normalize_key (s : String) : String :=
  String.mk ((s.data.filter (fun c => !(isWs c || c == '-' || c == '.'))).map Char.toUpper)

/-- `_grouping_key`. -/
def grouping_key (l : MarketListing) : Option String :=
  if pyTruthyStr l.brand && !l.part_numbers.isEmpty then
    some (normalize_key (l.brand.getD "") ++ ":" ++ normalize_key (l.part_numbers.headD ""))
  else none

/-- `_total_cost`: price plus shipping, with missing or non-positive
shipping treated as zero. -/
def total_cost (l : MarketListing) : ℚ :=
  l.price + (match l.shipping_cost with
             | some s => if 0 < s then s else 0
             | none => 0)

/-- `_value_score` (quality points per dollar; default quality `5.0`). -/
def value_score (gbp : GBP) (l : MarketListing) : ℚ :=
  let total := total_cost l
  if total ≤ 0 then 0
  else
    (match brandProfileOf gbp l.brand with
     | some p => p.quality_score
     | none => 5) * 10 / total

/-- Append a listing to its bucket in the (insertion-ordered) group dict. -/
def insertBucket (k : String) (l : MarketListing) :
    List (String × List MarketListing) → List (String × List MarketListing)
  | [] => [(k, [l])]
  | (k2, v) :: rest =>
    if k2 = k then (k2, v ++ [l]) :: rest else (k2, v) :: insertBucket k l rest

/-- One iteration of the first loop of `group_listings`: drop non-positive
prices, then route the listing to its keyed bucket or to the ungrouped
list. -/
def partStep (acc : List (String × List MarketListing) × List MarketListing)
    (l : MarketListing) : List (String × List MarketListing) × List MarketListing :=
  if l.price ≤ 0 then acc
  else
    match grouping_key l with
    | some k => (insertBucket k l acc.1, acc.2)
    | none => (acc.1, acc.2 ++ [l])

/-- The first loop of `group_listings`: drop non-positive prices and split
into keyed buckets and ungrouped listings. -/
def partitionGroups (listings : List MarketListing) :
    List (String × List MarketListing) × List MarketListing :=
  listings.foldl partStep ([], [])

/-- The offer dict built for each listing of a group. -/
def mkOffer (gbp : GBP) (l : MarketListing) : Offer :=
  { source := l.source,
    price := l.price,
    shipping_cost := l.shipping_cost,
    total_cost := round2 (total_cost l),
    condition := l.condition,
    url := l.url,
    title := l.title,
    image_url := l.image_url,
    value_score := round3 (value_score gbp l) }

/-- `offers.sort(key=lambda o: o["total_cost"])` order. -/
def offerLe (a b : Offer) : Prop := a.total_cost ≤ b.total_cost

instance : DecidableRel offerLe := fun a b => by unfold offerLe; infer_instance

instance : IsTotal Offer offerLe :=
  ⟨fun a b => le_total a.total_cost b.total_cost⟩

instance : IsTrans Offer offerLe :=
  ⟨fun _ _ _ h1 h2 => le_trans h1 h2⟩

/-- Python `min` over a non-empty list (`0` on `[]`, never reached). -/
def pyMinQ : List ℚ → ℚ
  | [] => 0
  | p :: ps => ps.foldl min p

/-- Python `max` over a non-empty list (`0` on `[]`, never reached). -/
def pyMaxQ : List ℚ → ℚ
  | [] => 0
  | p :: ps => ps.foldl max p

/-- The group dict built for one bucket of `group_listings`. The `[]` case
is unreachable (buckets are created non-empty and only appended to). -/
def mkGroupFromBucket (gbp : GBP) (bucket : List MarketListing) : ListingGroup :=
  match bucket with
  | [] => { brand := "Unknown" }
  | rep :: _ =>
    let profile := brandProfileOf gbp rep.brand
    let offers := (bucket.map (mkOffer gbp)).insertionSort offerLe
    let prices := offers.map (·.total_cost)
    { brand := if pyTruthyStr rep.brand then rep.brand.getD "" else "Unknown",
      part_number := rep.part_numbers.headD "",
      tier := match profile with | some p => p.tier | none => "unknown",
      quality_score := match profile with | some p => p.quality_score | none => 0,
      offers := offers,
      best_price := pyMinQ prices,
      price_range := ⟨pyMinQ prices, pyMaxQ prices⟩,
      offer_count := offers.length,
      best_value_score := pyMaxQ (offers.map (·.value_score)) }

/-- The single-offer group built for an ungrouped listing. -/
def mkSingletonGroup (gbp : GBP) (l : MarketListing) : ListingGroup :=
  let profile := brandProfileOf gbp l.brand
  let total := total_cost l
  let vs := value_score gbp l
  { brand := if pyTruthyStr l.brand then l.brand.getD "" else "Unknown",
    part_number := l.part_numbers.headD "",
    tier := match profile with | some p => p.tier | none => "unknown",
    quality_score := match profile with | some p => p.quality_score | none => 0,
    offers := [mkOffer gbp l],
    best_price := round2 total,
    price_range := ⟨round2 total, round2 total⟩,
    offer_count := 1,
    best_value_score := round3 vs }

/-- `result.sort(key=..., reverse=True)` order: best value score first
(stable descending sort). -/
def groupValueGe (a b : ListingGroup) : Prop := b.best_value_score ≤ a.best_value_score

instance : DecidableRel groupValueGe := fun a b => by unfold groupValueGe; infer_instance

instance : IsTotal ListingGroup groupValueGe :=
  ⟨fun a b => le_total b.best_value_score a.best_value_score⟩

instance : IsTrans ListingGroup groupValueGe :=
  ⟨fun _ _ _ h1 h2 => le_trans h2 h1⟩

/-- `group_listings`. -/
def group_listings (gbp : GBP) (listings : List MarketListing) : List ListingGroup :=
  let parts := partitionGroups listings
  let grouped := parts.1.map (fun b => mkGroupFromBucket gbp b.2)
  let singles := (parts.2.filter (fun l => !(l.price ≤ 0))).map (mkSingletonGroup gbp)
  (grouped ++ singles).insertionSort groupValueGe

/-! ## `utils/brand_intelligence.py` (`get_brand_tier_boost`) and
`utils/ranking.py` (`_relevance_score`) -/

/-- `get_brand_tier_boost` (parameterised by the external profile table). -/
def get_brand_tier_boost (gbp : GBP) (brand_name : String) (query_type : String) : ℚ :=
  match gbp brand_name with
  | none => 0
  | some p =>
    if query_type = "part_number" then
      if p.tier = "oem" then 3
      else if p.tier = "premium_aftermarket" then 2
      else if p.tier = "economy" then 1/2
      else 0
    else
      if p.tier = "oem" then 3/2
      else if p.tier = "premium_aftermarket" then 1
      else if p.tier = "economy" then 1/2
      else 0

/-- The part-description contribution of `_relevance_score` (lines 79–88 of
`ranking.py`): `+8` for a verbatim substring of the title, otherwise
`4 * fraction` of description words found in the title. -/
def descBonus (titleU : String) (pd : Option String) : ℚ :=
  match pd with
  | none => 0
  | some d =>
    if d.isEmpty then 0
    else
      let dU := pyUpper d
      if containsSub titleU.data dU.data then 8
      else
        let dws := pySplit dU.data
        let m := dws.countP (fun w => containsSub titleU.data w)
        if 0 < m then 4 * (m : ℚ) / dws.length else 0

/-- `_relevance_score`. -/
def relevance_score (gbp : GBP) (l : MarketListing) (query : String)
    (analysis : Option QueryAnalysis) : ℚ :=
  let qU := pyUpper query
  let titleU := pyUpper l.title
  let s1 : ℚ := if containsSub titleU.data qU.data then 10 else 0
  let ws := pySplit qU.data
  let s2 : ℚ :=
    if ws.isEmpty then 0
    else ((ws.countP (fun w => containsSub titleU.data w) : ℚ) / ws.length) * 5
  let s3 : ℚ := if l.part_numbers.isEmpty then 0 else 3
  let s4 : ℚ := if pyTruthyStr l.image_url then 1 else 0
  let s5 : ℚ :=
    match l.condition with
    | some c =>
      if c = "New" then 2 else if c = "Refurbished" then 3/2
      else if c = "Used" then 1 else 0
    | none => 0
  let s6 : ℚ := if 0 < l.price then 1 else 0
  let ctx : ℚ :=
    match analysis with
    | none => 0
    | some a =>
      let listingPNs := l.part_numbers.map pyUpper
      let relevantPNs := a.part_numbers.map pyUpper ++ a.cross_references.map pyUpper
      let c1 : ℚ :=
        if listingPNs.any (fun pn => relevantPNs.contains pn) then 15
        else if relevantPNs.any (fun pn => containsSub titleU.data pn.data) then 12
        else 0
      let c2 : ℚ :=
        match a.vehicle_hint with
        | none => 0
        | some vh =>
          if vh.isEmpty then 0
          else
            let vws := pySplit (pyUpper vh).data
            let m := vws.countP (fun w => containsSub titleU.data w)
            if m = vws.length then 10
            else if 0 < m then 5 * (m : ℚ) / vws.length
            else 0
      let c3 : ℚ := descBonus titleU a.part_description
      let c4 : ℚ :=
        if !a.brands_found.isEmpty && pyTruthyStr l.brand then
          if a.brands_found.any (fun b => pyUpper b = pyUpper (l.brand.getD "")) then 5 else 0
        else 0
      let c5 : ℚ :=
        if pyTruthyStr l.brand then
          get_brand_tier_boost gbp (l.brand.getD "") a.query_type.value
        else 0
      c1 + c2 + c3 + c4 + c5
  s1 + s2 + s3 + s4 + s5 + s6 + ctx

/-! ## `api/routes/search.py`: `_run_connector` and result aggregation

A connector's `search` coroutine is, from the runner's point of view, one
of three events: it returns a payload dict, the `asyncio.wait_for` race
raises `TimeoutError`, or it raises some other exception carrying a
message. The Redis cache lookup yields either a previously stored payload
or nothing (a read error is caught inside `get_cached_result` and is a
miss). The runner itself is a total function of those two inputs — that is
the "never raises" isolation contract. The cache write-back on success has
no bearing on the returned value and is not modelled. -/

/-- The payload dict shape produced by a connector (or read from cache). -/
structure ConnPayload where
  market_listings : List MarketListing := []
  salvage_hits : List SalvageHit := []
  external_links : List ExternalLink := []
  error : Option String := none
deriving DecidableEq, Repr

/-- The outcome of racing `connector.search` against the timeout. -/
inductive SearchOutcome where
  | success (p : ConnPayload)
  | timeout
  | raised (msg : String)
deriving DecidableEq, Repr

/-- The tagged result dict returned by `_run_connector`. -/
structure RunOutput where
  market_listings : List MarketListing := []
  salvage_hits : List SalvageHit := []
  external_links : List ExternalLink := []
  error : Option String := none
  status : String
  source : String
  matched_interchange : Option String := none
deriving DecidableEq, Repr

/-- `_run_connector`. The second component records whether
`connector.search` was invoked at all. -/
def run_connector (source : String) (timeoutSecs : Nat) (cached : Option ConnPayload)
    (outcome : SearchOutcome) (matched_interchange : Option String) :
    RunOutput × Bool :=
  match cached with
  | some p =>
    ({ market_listings := p.market_listings, salvage_hits := p.salvage_hits,
       external_links := p.external_links, error := p.error,
       status := "cached", source := source,
       matched_interchange := matched_interchange }, false)
  | none =>
    match outcome with
    | .success p =>
      ({ market_listings := p.market_listings, salvage_hits := p.salvage_hits,
         external_links := p.external_links, error := p.error,
         status := if pyTruthyStr p.error then "error" else "ok",
         source := source, matched_interchange := matched_interchange }, true)
    | .timeout =>
      ({ error := some ("Timed out after " ++ toString timeoutSecs ++ "s"),
         status := "error", source := source,
         matched_interchange := matched_interchange }, true)
    | .raised msg =>
      ({ error := some msg, status := "error", source := source,
         matched_interchange := matched_interchange }, true)

/-- The interchange tagging applied to each listing during aggregation. -/
def tagInterchange (ic : Option String) (l : MarketListing) : MarketListing :=
  if pyTruthyStr ic && !(pyTruthyStr l.matched_interchange) then
    { l with matched_interchange := ic }
  else l

/-- The `sources_queried` entry built for one connector result
(`details = error_msg or "Success"`). -/
def statusEntryOf (r : RunOutput) : SourceStatus :=
  { source := r.source,
    status := r.status,
    details := some (if pyTruthyStr r.error then r.error.getD "" else "Success"),
    result_count := r.market_listings.length + r.salvage_hits.length
      + r.external_links.length }

/-- The warning string appended for a failed connector result. -/
def warningOf (r : RunOutput) : Option String :=
  if pyTruthyStr r.error then some (r.source ++ ": " ++ r.error.getD "") else none

/-- The aggregate accumulated by the `for result in results` loop of
`search_parts`. -/
structure Aggregated where
  market_listings : List MarketListing := []
  salvage_hits : List SalvageHit := []
  external_links : List ExternalLink := []
  sources_queried : List SourceStatus := []
  warnings : List String := []
deriving DecidableEq, Repr

/-- One iteration of the aggregation loop. -/
def aggStep (acc : Aggregated) (r : RunOutput) : Aggregated :=
  { market_listings :=
      acc.market_listings ++ r.market_listings.map (tagInterchange r.matched_interchange),
    salvage_hits := acc.salvage_hits ++ r.salvage_hits,
    external_links := acc.external_links ++ r.external_links,
    sources_queried := acc.sources_queried ++ [statusEntryOf r],
    warnings := acc.warnings ++ (warningOf r).toList }

/-- The aggregation loop of `search_parts` over the settled connector
results (`_run_connector` is total, so the `isinstance(result, Exception)`
guard of the loop is dead and the inputs are exactly the result dicts). -/
def aggregateResults (results : List RunOutput) : Aggregated :=
  results.foldl aggStep {}

/-! ## Concrete fixtures used by the witnesses and counterexamples -/

/-- The two listings of the grouping scenario of the spec (§8). -/
def bosch1 : MarketListing :=
  { source := "s1", title := "t1", price := 30, url := "u1",
    part_numbers := ["BP1"], brand := some "Bosch", shipping_cost := some 5 }

def bosch2 : MarketListing :=
  { source := "s2", title := "t2", price := 32, url := "u2",
    part_numbers := ["BP1"], brand := some "Bosch", shipping_cost := some 0 }

/-- The brand-profile lookup that knows no brand. -/
def noProfiles : GBP := fun _ => none

/-- An unprofiled-brand listing whose total cost is so large that its
rounded value score vanishes. It has no part numbers, so it takes the
ungrouped (singleton-group) path. -/
def bigNoProfile : MarketListing :=
  { source := "s", title := "t", price := 1000000, url := "u",
    brand := some "NoName" }

/-- An ordinary unprofiled-brand listing (ungrouped path). -/
def smallNoProfile : MarketListing :=
  { source := "s2", title := "t2", price := 100, url := "u2",
    brand := some "NoName" }

/-- A listing whose title contains both words of "BRAKE PAD" but not the
phrase itself. -/
def cexC6Listing : MarketListing :=
  { source := "s", title := "PAD BRAKE", price := 0, url := "u" }

/-- An analysis whose only context signal is a part description. -/
def cexC6Analysis : QueryAnalysis :=
  { query_type := QueryType.keywords, original_query := "x",
    part_description := some "BRAKE PAD" }

/-! ## Supporting lemmas -/

lemma meaningfulRemaining_of_empty {q : String} {e : List String}
    (h : (remainingAfterRemoval q e).isEmpty = true) : meaningfulRemaining q e = [] := by
  unfold meaningfulRemaining
  rw [List.isEmpty_iff.mp h]
  rfl

lemma is_part_number_query_iff (q : String) (e : List String) :
    is_part_number_query q e = true ↔
      (e ≠ [] ∧ (meaningfulRemaining q e = [] ∨
        (purePartNumberMatch (pyStripL (pyUpperL q.data)) = true ∧
          allKeywordOrMake q = false))) := by
  unfold is_part_number_query
  split_ifs with h1 h2 h3 h4 h5
  · simp [List.isEmpty_iff.mp h1]
  · simp only [true_iff]
    exact ⟨by simpa [List.isEmpty_iff] using h1,
      Or.inl (meaningfulRemaining_of_empty h2)⟩
  · simp only [true_iff]
    exact ⟨by simpa [List.isEmpty_iff] using h1, Or.inl (List.isEmpty_iff.mp h3)⟩
  · constructor
    · intro h; cases h
    · rintro ⟨-, h | ⟨-, hall⟩⟩
      · exact absurd (List.isEmpty_iff.mpr h) (by simpa using h3)
      · simp [h5] at hall
  · simp only [true_iff]
    refine ⟨by simpa [List.isEmpty_iff] using h1, Or.inr ⟨h4, by simpa using h5⟩⟩
  · constructor
    · intro h; cases h
    · rintro ⟨-, h | ⟨hp, -⟩⟩
      · exact absurd (List.isEmpty_iff.mpr h) (by simpa using h3)
      · exact absurd hp (by simpa using h4)

lemma dedupGo_sublist (seen : List String) (L : List MarketListing) :
    (dedupListingsGo seen L).Sublist L := by
  induction L generalizing seen with
  | nil => simp [dedupListingsGo]
  | cons l rest ih =>
    by_cases h : l.url ∈ seen
    · simpa [dedupListingsGo, h] using List.Sublist.cons l (ih seen)
    · simpa [dedupListingsGo, h] using List.Sublist.cons₂ l (ih (l.url :: seen))

lemma dedupGo_mem {x : MarketListing} {seen : List String} {L : List MarketListing}
    (hx : x ∈ dedupListingsGo seen L) : x ∈ L ∧ x.url ∉ seen := by
  induction L generalizing seen with
  | nil => simp [dedupListingsGo] at hx
  | cons l rest ih =>
    by_cases h : l.url ∈ seen
    · simp only [dedupListingsGo, if_pos h] at hx
      obtain ⟨h1, h2⟩ := ih hx
      exact ⟨List.mem_cons_of_mem l h1, h2⟩
    · simp only [dedupListingsGo, if_neg h] at hx
      rcases List.mem_cons.mp hx with rfl | hx2
      · exact ⟨List.mem_cons_self _ _, h⟩
      · obtain ⟨h1, h2⟩ := ih hx2
        refine ⟨List.mem_cons_of_mem l h1, fun hc => h2 (List.mem_cons_of_mem _ hc)⟩

lemma dedupGo_pairwise (seen : List String) (L : List MarketListing) :
    (dedupListingsGo seen L).Pairwise (fun a b => a.url ≠ b.url) := by
  induction L generalizing seen with
  | nil => simp [dedupListingsGo]
  | cons l rest ih =>
    by_cases h : l.url ∈ seen
    · simpa [dedupListingsGo, h] using ih seen
    · simp only [dedupListingsGo, if_neg h]
      refine List.Pairwise.cons (fun y hy => ?_) (ih (l.url :: seen))
      have := (dedupGo_mem hy).2
      intro hc
      exact this (by simp [← hc])

lemma dedupGo_find {x : MarketListing} {seen : List String} {L : List MarketListing}
    (hx : x ∈ dedupListingsGo seen L) :
    L.find? (fun l => l.url == x.url) = some x := by
  induction L generalizing seen with
  | nil => simp [dedupListingsGo] at hx
  | cons l rest ih =>
    by_cases h : l.url ∈ seen
    · simp only [dedupListingsGo, if_pos h] at hx
      have hne : l.url ≠ x.url := by
        intro hc; exact (dedupGo_mem hx).2 (hc ▸ h)
      have hbe : (l.url == x.url) = false := beq_eq_false_iff_ne.mpr hne
      simp [List.find?, hbe, ih hx]
    · simp only [dedupListingsGo, if_neg h] at hx
      rcases List.mem_cons.mp hx with rfl | hx2
      · simp [List.find?]
      · have hne : l.url ≠ x.url := by
          intro hc
          exact (dedupGo_mem hx2).2 (by simp [hc])
        have hbe : (l.url == x.url) = false := beq_eq_false_iff_ne.mpr hne
        simp [List.find?, hbe, ih hx2]

lemma dedupGo_covers {u : String} {seen : List String} {L : List MarketListing}
    (h : ∃ l ∈ L, l.url = u) :
    u ∈ seen ∨ ∃ x ∈ dedupListingsGo seen L, x.url = u := by
  induction L generalizing seen with
  | nil => simp at h
  | cons l rest ih =>
    by_cases hs : l.url ∈ seen
    · simp only [dedupListingsGo, if_pos hs]
      obtain ⟨l2, hl2, hu⟩ := h
      rcases List.mem_cons.mp hl2 with rfl | hmem
      · exact Or.inl (hu ▸ hs)
      · exact ih ⟨l2, hmem, hu⟩
    · simp only [dedupListingsGo, if_neg hs]
      obtain ⟨l2, hl2, hu⟩ := h
      rcases List.mem_cons.mp hl2 with rfl | hmem
      · exact Or.inr ⟨l2, List.mem_cons_self _ _, hu⟩
      · rcases @ih (l.url :: seen) ⟨l2, hmem, hu⟩ with hin | ⟨x, hx, hxu⟩
        · rcases List.mem_cons.mp hin with rfl | hin2
          · exact Or.inr ⟨l, List.mem_cons_self _ _, rfl⟩
          · exact Or.inl hin2
        · exact Or.inr ⟨x, List.mem_cons_of_mem _ hx, hxu⟩

/-! ## Claim theorems -/

set_option maxRecDepth 100000 in
set_option maxHeartbeats 2000000 in
/-- **C9.** `analyze_query` classifies `"951-375-042-04"` as PART_NUMBER,
`"2015 Honda Civic brake pads"` as VEHICLE_PART with a vehicle hint
containing both "Honda" and "Civic", and `"ceramic brake pads"` as
KEYWORDS (the make "RAM" inside "CERAMIC" is rejected at the word
boundary). -/
theorem C9_theorem :
    (analyze_query ("951-375-042-04")).query_type = QueryType.part_number
    ∧ (analyze_query ("2015 Honda Civic brake pads")).query_type = QueryType.vehicle_part
    ∧ (analyze_query ("2015 Honda Civic brake pads")).vehicle_hint = some ("2015 Honda Civic")
    ∧ containsSub (toL "2015 Honda Civic") (toL "Honda") = true
    ∧ containsSub (toL "2015 Honda Civic") (toL "Civic") = true
    ∧ (analyze_query ("ceramic brake pads")).query_type = QueryType.keywords := by
  refine ⟨?_, ?_, ?_, ?_, ?_, ?_⟩ <;> decide

set_option maxRecDepth 400000 in
set_option maxHeartbeats 4000000 in
/-- **C2 (amended).** `analyze_query` classifies a query as PART_NUMBER
exactly when at least one part number is extracted and either nothing
meaningful remains after removing the extracted part numbers and the noise
words, or the uppercased query consists solely of part-number characters
(alphanumerics, dots, dashes, slashes, whitespace) and not every word is a
known part-type keyword or make. Otherwise it proceeds to vehicle
detection (VEHICLE_PART exactly when a vehicle hint is found, else
KEYWORDS). Single-word queries that are a part-type keyword, or a make
containing no dash, are never classified PART_NUMBER. -/
theorem C2_theorem :
    (∀ q : String,
      (analyze_query q).query_type = QueryType.part_number ↔
        (extract_part_numbers (normalizedQuery q) ≠ [] ∧
          (meaningfulRemaining (normalizedQuery q) (extract_part_numbers (normalizedQuery q)) = []
            ∨ (purePartNumberMatch (pyStripL (pyUpperL (normalizedQuery q).data)) = true ∧
                allKeywordOrMake (normalizedQuery q) = false))))
    ∧ (∀ q : String, (analyze_query q).query_type ≠ QueryType.part_number →
        ((analyze_query q).query_type = QueryType.vehicle_part ↔
          (detect_vehicle (normalizedQuery q)).isSome = true))
    ∧ (∀ w ∈ PART_KEYWORDS, (analyze_query w).query_type ≠ QueryType.part_number)
    ∧ (∀ m ∈ MAKES, m.data.contains '-' = false → m.data.contains ' ' = false →
        (analyze_query m).query_type ≠ QueryType.part_number) := by
  refine ⟨?_, ?_, ?_, ?_⟩
  · intro q
    simp only [analyze_query]
    split_ifs with h1 h2
    · exact iff_of_true rfl ((is_part_number_query_iff _ _).mp h1)
    · exact iff_of_false (by simp)
        (fun hr => h1 ((is_part_number_query_iff _ _).mpr hr))
    · exact iff_of_false (by simp)
        (fun hr => h1 ((is_part_number_query_iff _ _).mpr hr))
  · intro q hne
    simp only [analyze_query] at hne ⊢
    split_ifs at hne ⊢ with h1 h2
    · exact absurd rfl hne
    · exact iff_of_true rfl h2
    · exact iff_of_false (by simp) (by simpa using h2)
  · decide
  · decide

set_option maxRecDepth 100000 in
set_option maxHeartbeats 2000000 in
/-- **C2, counterexample to the claim as stated.** `"ROLLS-ROYCE"` is a
single-word query consisting only of a vehicle make, yet it is classified
PART_NUMBER (its dash makes it match the dash pattern of
`extract_part_numbers`, after which nothing remains); and
`"BP1234 XYZW"` is classified PART_NUMBER although the meaningful word
`"XYZW"` remains after removing the extracted part number — classification
did not proceed to vehicle detection in either case. -/
theorem C2_counterexample :
    ((analyze_query ("ROLLS-ROYCE")).query_type = QueryType.part_number
      ∧ ("ROLLS-ROYCE" : String) ∈ MAKES
      ∧ (pySplit (toL "ROLLS-ROYCE")).length = 1)
    ∧ ((analyze_query ("BP1234 XYZW")).query_type = QueryType.part_number
      ∧ meaningfulRemaining (normalizedQuery ("BP1234 XYZW"))
          (extract_part_numbers (normalizedQuery ("BP1234 XYZW"))) ≠ []) := by
  refine ⟨⟨?_, ?_, ?_⟩, ?_, ?_⟩ <;> decide

set_option maxRecDepth 100000 in
set_option maxHeartbeats 2000000 in
/-- Witness for `C2_theorem`: its hypotheses hold at, and its conclusions
are discharged for, the concrete queries `"BRAKE"`, `"FORD"` and
`"2015 HONDA CIVIC BRAKE PADS"`. -/
theorem C2_witness :
    ((analyze_query ("BRAKE")).query_type ≠ QueryType.part_number)
    ∧ ((analyze_query ("FORD")).query_type ≠ QueryType.part_number)
    ∧ ((analyze_query ("2015 HONDA CIVIC BRAKE PADS")).query_type = QueryType.vehicle_part ↔
        (detect_vehicle (normalizedQuery ("2015 HONDA CIVIC BRAKE PADS"))).isSome = true) :=
  ⟨C2_theorem.2.2.1 ("BRAKE") (by decide),
   C2_theorem.2.2.2 ("FORD") (by decide) (by decide) (by decide),
   C2_theorem.2.1 ("2015 HONDA CIVIC BRAKE PADS") (by decide)⟩

/-- **C1.** The merged interchange group's confidence is exactly the step
function of the number of providers that returned non-empty data
(0 ↦ 0.0, 1 ↦ 0.5, 2 ↦ 0.7, ≥3 ↦ 0.9), and that step function — hence the
confidence — never decreases as the count grows. -/
theorem C1_theorem :
    (∀ (pn : String) (results : List CrossRefResult),
      (merge_cross_ref_results pn results).confidence
          = confidenceStep (sourcesWithData results)
      ∧ (sourcesWithData results = 0 → (merge_cross_ref_results pn results).confidence = 0)
      ∧ (sourcesWithData results = 1 → (merge_cross_ref_results pn results).confidence = 1/2)
      ∧ (sourcesWithData results = 2 → (merge_cross_ref_results pn results).confidence = 7/10)
      ∧ (3 ≤ sourcesWithData results → (merge_cross_ref_results pn results).confidence = 9/10))
    ∧ (∀ (pn1 pn2 : String) (rs1 rs2 : List CrossRefResult),
        sourcesWithData rs1 ≤ sourcesWithData rs2 →
        (merge_cross_ref_results pn1 rs1).confidence
          ≤ (merge_cross_ref_results pn2 rs2).confidence) := by
  have hconf : ∀ (pn : String) (rs : List CrossRefResult),
      (merge_cross_ref_results pn rs).confidence = confidenceStep (sourcesWithData rs) :=
    fun pn rs => rfl
  constructor
  · intro pn results
    refine ⟨hconf pn results, ?_, ?_, ?_, ?_⟩
    · intro h; rw [hconf, h]; norm_num [confidenceStep]
    · intro h; rw [hconf, h]; norm_num [confidenceStep]
    · intro h; rw [hconf, h]; norm_num [confidenceStep]
    · intro h; rw [hconf]; unfold confidenceStep; rw [if_pos h]
  · intro pn1 pn2 rs1 rs2 h
    rw [hconf, hconf]
    unfold confidenceStep
    split_ifs <;> try omega
    all_goals norm_num

/-- Witness for `C1_theorem` at concrete inputs: an empty provider list
(confidence 0), one provider with data (0.5), and the monotonicity instance
between them. -/
theorem C1_witness :
    ((merge_cross_ref_results ("X1") ([] : List CrossRefResult)).confidence = 0)
    ∧ ((merge_cross_ref_results ("X1")
        [{ source := "fcpeuro", part_numbers := ["A1"] }]).confidence = 1/2)
    ∧ ((merge_cross_ref_results ("X1") ([] : List CrossRefResult)).confidence ≤
        (merge_cross_ref_results ("X1")
          [{ source := "fcpeuro", part_numbers := ["A1"] }]).confidence) :=
  ⟨(C1_theorem.1 ("X1") []).2.1 (by decide),
   (C1_theorem.1 ("X1") [{ source := "fcpeuro", part_numbers := ["A1"] }]).2.2.1 (by decide),
   C1_theorem.2 ("X1") ("X1") [] [{ source := "fcpeuro", part_numbers := ["A1"] }]
     (by decide)⟩

/-- **C8.** `deduplicate_listings` returns a subsequence of its input (so
first-seen order is preserved) in which no two listings share a URL, every
input URL is represented, and every kept listing is the *first* input
listing bearing its URL. -/
theorem C8_theorem :
    ∀ L : List MarketListing,
      (deduplicate_listings L).Sublist L
      ∧ (deduplicate_listings L).Pairwise (fun a b => a.url ≠ b.url)
      ∧ (∀ x ∈ deduplicate_listings L, L.find? (fun l => l.url == x.url) = some x)
      ∧ (∀ l ∈ L, ∃ x ∈ deduplicate_listings L, x.url = l.url) := by
  intro L
  refine ⟨dedupGo_sublist [] L, dedupGo_pairwise [] L,
    fun x hx => dedupGo_find hx, fun l hl => ?_⟩
  rcases @dedupGo_covers _ [] _ ⟨l, hl, rfl⟩ with h | h
  · simp at h
  · exact h

/-- Witness for `C8_theorem` on a concrete three-listing input with one
duplicated URL. -/
theorem C8_witness :
    (∀ x ∈ deduplicate_listings
        [{ source := "a", title := "t1", price := 1, url := "u1" },
         { source := "b", title := "t2", price := 2, url := "u1" },
         { source := "c", title := "t3", price := 3, url := "u2" }],
      ([{ source := "a", title := "t1", price := 1, url := "u1" },
        { source := "b", title := "t2", price := 2, url := "u1" },
        { source := "c", title := "t3", price := 3, url := "u2" }]
          : List MarketListing).find? (fun l => l.url == x.url) = some x)
    ∧ (∀ l ∈ ([{ source := "a", title := "t1", price := 1, url := "u1" },
         { source := "b", title := "t2", price := 2, url := "u1" },
         { source := "c", title := "t3", price := 3, url := "u2" }]
           : List MarketListing),
        ∃ x ∈ deduplicate_listings
          [{ source := "a", title := "t1", price := 1, url := "u1" },
           { source := "b", title := "t2", price := 2, url := "u1" },
           { source := "c", title := "t3", price := 3, url := "u2" }], x.url = l.url) :=
  ⟨(C8_theorem _).2.2.1, (C8_theorem _).2.2.2⟩

/-- Closed form of the aggregation loop, for any starting accumulator. -/
lemma aggregateFold_closed (rs : List RunOutput) (acc : Aggregated) :
    rs.foldl aggStep acc =
      { market_listings := acc.market_listings
          ++ (rs.map (fun r => r.market_listings.map (tagInterchange r.matched_interchange))).flatten,
        salvage_hits := acc.salvage_hits ++ (rs.map (fun r => r.salvage_hits)).flatten,
        external_links := acc.external_links ++ (rs.map (fun r => r.external_links)).flatten,
        sources_queried := acc.sources_queried ++ rs.map statusEntryOf,
        warnings := acc.warnings ++ rs.filterMap warningOf } := by
  induction rs generalizing acc with
  | nil => cases acc; simp
  | cons r rest ih =>
    rw [List.foldl_cons, ih]
    cases acc
    simp [aggStep, List.filterMap_cons]
    cases h : warningOf r <;> simp [h, Option.toList]

/-- **C3.** A single connector invocation is a total function of the cache
state and the search outcome (it never raises): a cache hit returns the
cached payload tagged `"cached"` without invoking `search`; a timeout
yields status `"error"` with a "Timed out after Ns" message; any other
exception yields status `"error"` with the exception message; a returned
payload is tagged `"ok"` or `"error"` according to the payload's own error
field; and no status other than `"ok"`, `"error"`, `"cached"` can occur. -/
theorem C3_theorem :
    ∀ (source : String) (t : Nat) (cached : Option ConnPayload)
      (outcome : SearchOutcome) (ic : Option String),
      (∀ p, cached = some p →
        run_connector source t cached outcome ic =
          ({ market_listings := p.market_listings, salvage_hits := p.salvage_hits,
             external_links := p.external_links, error := p.error,
             status := "cached", source := source, matched_interchange := ic }, false))
      ∧ (cached = none → outcome = SearchOutcome.timeout →
          (run_connector source t cached outcome ic).1.status = "error"
          ∧ (run_connector source t cached outcome ic).1.error
              = some ("Timed out after " ++ toString t ++ "s")
          ∧ (run_connector source t cached outcome ic).1.market_listings = [])
      ∧ (cached = none → ∀ msg, outcome = SearchOutcome.raised msg →
          (run_connector source t cached outcome ic).1.status = "error"
          ∧ (run_connector source t cached outcome ic).1.error = some msg)
      ∧ (cached = none → ∀ p, outcome = SearchOutcome.success p →
          (run_connector source t cached outcome ic).1.status
              = (if pyTruthyStr p.error then "error" else "ok")
          ∧ (run_connector source t cached outcome ic).1.error = p.error
          ∧ (run_connector source t cached outcome ic).1.market_listings
              = p.market_listings)
      ∧ ((run_connector source t cached outcome ic).1.status = "ok"
          ∨ (run_connector source t cached outcome ic).1.status = "error"
          ∨ (run_connector source t cached outcome ic).1.status = "cached") := by
  intro source t cached outcome ic
  refine ⟨?_, ?_, ?_, ?_, ?_⟩
  · rintro p rfl; rfl
  · rintro rfl rfl; exact ⟨rfl, rfl, rfl⟩
  · rintro rfl msg rfl; exact ⟨rfl, rfl⟩
  · rintro rfl p rfl; exact ⟨rfl, rfl, rfl⟩
  · cases cached with
    | some p => exact Or.inr (Or.inr rfl)
    | none =>
      cases outcome with
      | success p =>
        by_cases h : pyTruthyStr p.error = true
        · exact Or.inr (Or.inl (by simp [run_connector, h]))
        · exact Or.inl (by simp [run_connector, h])
      | timeout => exact Or.inr (Or.inl rfl)
      | raised msg => exact Or.inr (Or.inl rfl)

/-- Witness for `C3_theorem`: the concrete cached, timed-out, raising and
successful invocations of a connector named "ebay" with a 15s timeout. -/
theorem C3_witness :
    (run_connector ("ebay") 15 (some { error := none }) SearchOutcome.timeout none =
      ({ error := none, status := "cached", source := "ebay" }, false))
    ∧ ((run_connector ("ebay") 15 none SearchOutcome.timeout none).1.status = "error"
        ∧ (run_connector ("ebay") 15 none SearchOutcome.timeout none).1.error
            = some ("Timed out after 15s")
        ∧ (run_connector ("ebay") 15 none SearchOutcome.timeout none).1.market_listings = [])
    ∧ ((run_connector ("ebay") 15 none (SearchOutcome.raised ("boom")) none).1.status = "error"
        ∧ (run_connector ("ebay") 15 none (SearchOutcome.raised ("boom")) none).1.error
            = some ("boom"))
    ∧ ((run_connector ("ebay") 15 none
          (SearchOutcome.success { error := some "bad page" }) none).1.status
        = (if pyTruthyStr (some ("bad page")) then "error" else "ok")) :=
  ⟨(C3_theorem ("ebay") 15 (some { error := none }) SearchOutcome.timeout none).1
      { error := none } rfl,
   (C3_theorem ("ebay") 15 none SearchOutcome.timeout none).2.1 rfl rfl,
   (C3_theorem ("ebay") 15 none (SearchOutcome.raised ("boom")) none).2.2.1 rfl
      ("boom") rfl,
   ((C3_theorem ("ebay") 15 none
      (SearchOutcome.success { error := some "bad page" }) none).2.2.2.1 rfl
      { error := some "bad page" } rfl).1⟩

/-- **C5.** In the aggregation loop, every connector result contributes
exactly one `sources_queried` entry (positionally, `results.map`), every
result with a (truthy) error contributes exactly one warning of the form
`"{source}: {message}"` (and only those), and the listings, salvage hits
and links of *all* results are concatenated into the response — a failed
connector never suppresses the others' results. Moreover a result produced
by `_run_connector` whose error is set never carries status `"ok"`. -/
theorem C5_theorem :
    ∀ results : List RunOutput,
      (aggregateResults results).sources_queried = results.map statusEntryOf
      ∧ (aggregateResults results).warnings = results.filterMap warningOf
      ∧ (aggregateResults results).market_listings
          = (results.map (fun r => r.market_listings.map (tagInterchange r.matched_interchange))).flatten
      ∧ (aggregateResults results).salvage_hits
          = (results.map (fun r => r.salvage_hits)).flatten
      ∧ (aggregateResults results).external_links
          = (results.map (fun r => r.external_links)).flatten
      ∧ (∀ r ∈ results, pyTruthyStr r.error = true →
          statusEntryOf r ∈ (aggregateResults results).sources_queried
          ∧ warningOf r = some (r.source ++ ": " ++ r.error.getD "")
          ∧ (r.source ++ ": " ++ r.error.getD "") ∈ (aggregateResults results).warnings)
      ∧ (∀ (source : String) (t : Nat) (cached : Option ConnPayload)
            (outcome : SearchOutcome) (ic : Option String),
          pyTruthyStr (run_connector source t cached outcome ic).1.error = true →
          (run_connector source t cached outcome ic).1.status ≠ "ok") := by
  intro results
  have hc := aggregateFold_closed results {}
  unfold aggregateResults
  rw [hc]
  refine ⟨by simp, by simp, by simp, by simp, by simp, ?_, ?_⟩
  · intro r hr herr
    have hw : warningOf r = some (r.source ++ ": " ++ r.error.getD "") := by
      simp [warningOf, herr]
    refine ⟨by simp; exact ⟨r, hr, rfl⟩, hw, ?_⟩
    simp only [List.nil_append]
    exact List.mem_filterMap.mpr ⟨r, hr, hw⟩
  · intro source t cached outcome ic herr
    cases cached with
    | some p => simp [run_connector]
    | none =>
      cases outcome with
      | success p =>
        simp only [run_connector] at herr ⊢
        rw [herr]
        simp
      | timeout => simp [run_connector]
      | raised msg => simp [run_connector]

/-- Witness for `C5_theorem`: the membership conjuncts at a concrete result
list containing one failed and one successful connector result. -/
theorem C5_witness :
    (statusEntryOf { error := some "boom", status := "error", source := "ebay" }
        ∈ (aggregateResults
            [{ error := some "boom", status := "error", source := "ebay" },
             { status := "ok", source := "amazon" }]).sources_queried
      ∧ warningOf { error := some "boom", status := "error", source := "ebay" }
          = some ("ebay" ++ ": " ++ "boom")
      ∧ ("ebay" ++ ": " ++ "boom")
          ∈ (aggregateResults
              [{ error := some "boom", status := "error", source := "ebay" },
               { status := "ok", source := "amazon" }]).warnings)
    ∧ (run_connector ("ebay") 15 none (SearchOutcome.raised ("boom")) none).1.status ≠ "ok" :=
  ⟨(C5_theorem
      [{ error := some "boom", status := "error", source := "ebay" },
       { status := "ok", source := "amazon" }]).2.2.2.2.2.1
      { error := some "boom", status := "error", source := "ebay" }
      (by simp) (by decide),
   (C5_theorem []).2.2.2.2.2.2 ("ebay") 15 none (SearchOutcome.raised ("boom")) none
      (by decide)⟩

/-! ### Python `min`/`max` over lists -/

lemma foldlMin_le (p : ℚ) (ps : List ℚ) :
    ps.foldl min p ≤ p ∧ ∀ x ∈ ps, ps.foldl min p ≤ x := by
  induction ps generalizing p with
  | nil => simp
  | cons q qs ih =>
    have h := ih (min p q)
    refine ⟨le_trans h.1 (min_le_left p q), fun x hx => ?_⟩
    rcases List.mem_cons.mp hx with rfl | hx2
    · exact le_trans h.1 (min_le_right p x)
    · exact h.2 x hx2

lemma foldlMin_mem (p : ℚ) (ps : List ℚ) : ps.foldl min p = p ∨ ps.foldl min p ∈ ps := by
  induction ps generalizing p with
  | nil => simp
  | cons q qs ih =>
    rcases ih (min p q) with h | h
    · rcases min_choice p q with hm | hm
      · exact Or.inl (by rw [List.foldl_cons, h, hm])
      · exact Or.inr (by rw [List.foldl_cons, h, hm]; exact List.mem_cons_self _ _)
    · exact Or.inr (List.mem_cons_of_mem _ h)

lemma pyMinQ_le {l : List ℚ} {x : ℚ} (hx : x ∈ l) : pyMinQ l ≤ x := by
  cases l with
  | nil => simp at hx
  | cons p ps =>
    rcases List.mem_cons.mp hx with rfl | hx2
    · exact (foldlMin_le x ps).1
    · exact (foldlMin_le p ps).2 x hx2

lemma pyMinQ_mem {l : List ℚ} (h : l ≠ []) : pyMinQ l ∈ l := by
  cases l with
  | nil => exact absurd rfl h
  | cons p ps =>
    show ps.foldl min p ∈ p :: ps
    rcases foldlMin_mem p ps with h2 | h2
    · rw [h2]; exact List.mem_cons_self _ _
    · exact List.mem_cons_of_mem _ h2

lemma foldlMax_ge (p : ℚ) (ps : List ℚ) :
    p ≤ ps.foldl max p ∧ ∀ x ∈ ps, x ≤ ps.foldl max p := by
  induction ps generalizing p with
  | nil => simp
  | cons q qs ih =>
    have h := ih (max p q)
    refine ⟨le_trans (le_max_left p q) h.1, fun x hx => ?_⟩
    rcases List.mem_cons.mp hx with rfl | hx2
    · exact le_trans (le_max_right p x) h.1
    · exact h.2 x hx2

lemma foldlMax_mem (p : ℚ) (ps : List ℚ) : ps.foldl max p = p ∨ ps.foldl max p ∈ ps := by
  induction ps generalizing p with
  | nil => simp
  | cons q qs ih =>
    rcases ih (max p q) with h | h
    · rcases max_choice p q with hm | hm
      · exact Or.inl (by rw [List.foldl_cons, h, hm])
      · exact Or.inr (by rw [List.foldl_cons, h, hm]; exact List.mem_cons_self _ _)
    · exact Or.inr (List.mem_cons_of_mem _ h)

lemma pyMaxQ_ge {l : List ℚ} {x : ℚ} (hx : x ∈ l) : x ≤ pyMaxQ l := by
  cases l with
  | nil => simp at hx
  | cons p ps =>
    rcases List.mem_cons.mp hx with rfl | hx2
    · exact (foldlMax_ge x ps).1
    · exact (foldlMax_ge p ps).2 x hx2

lemma pyMaxQ_mem {l : List ℚ} (h : l ≠ []) : pyMaxQ l ∈ l := by
  cases l with
  | nil => exact absurd rfl h
  | cons p ps =>
    show ps.foldl max p ∈ p :: ps
    rcases foldlMax_mem p ps with h2 | h2
    · rw [h2]; exact List.mem_cons_self _ _
    · exact List.mem_cons_of_mem _ h2

/-! ### Invariants of the grouping partition -/

lemma insertBucket_inv (P : MarketListing → Prop) {k : String} {l : MarketListing}
    {bs : List (String × List MarketListing)}
    (hbs : ∀ p ∈ bs, p.2 ≠ [] ∧ ∀ x ∈ p.2, P x) (hl : P l) :
    ∀ p ∈ insertBucket k l bs, p.2 ≠ [] ∧ ∀ x ∈ p.2, P x := by
  induction bs with
  | nil =>
    intro p hp
    simp only [insertBucket, List.mem_singleton] at hp
    subst hp
    exact ⟨by simp, by simpa using hl⟩
  | cons b rest ih =>
    intro p hp
    simp only [insertBucket] at hp
    by_cases hk : b.1 = k
    · rw [if_pos hk] at hp
      rcases List.mem_cons.mp hp with rfl | hp2
      · refine ⟨by simp, fun x hx => ?_⟩
        rcases List.mem_append.mp hx with hx1 | hx1
        · exact (hbs b (List.mem_cons_self _ _)).2 x hx1
        · rw [List.mem_singleton.mp hx1]; exact hl
      · exact hbs p (List.mem_cons_of_mem _ hp2)
    · rw [if_neg hk] at hp
      rcases List.mem_cons.mp hp with rfl | hp2
      · exact hbs b (List.mem_cons_self _ _)
      · exact ih (fun q hq => hbs q (List.mem_cons_of_mem _ hq)) _ hp2

lemma partitionFold_inv (P : MarketListing → Prop) :
    ∀ (L : List MarketListing)
      (acc : List (String × List MarketListing) × List MarketListing),
      (∀ l ∈ L, 0 < l.price → P l) →
      (∀ p ∈ acc.1, p.2 ≠ [] ∧ ∀ x ∈ p.2, P x ∧ 0 < x.price) →
      (∀ l ∈ acc.2, P l ∧ 0 < l.price) →
      (∀ p ∈ (L.foldl partStep acc).1, p.2 ≠ [] ∧ ∀ x ∈ p.2, P x ∧ 0 < x.price)
      ∧ (∀ l ∈ (L.foldl partStep acc).2, P l ∧ 0 < l.price) := by
  intro L
  induction L with
  | nil => intro acc _ h1 h2; exact ⟨h1, h2⟩
  | cons l rest ih =>
    intro acc hL h1 h2
    rw [List.foldl_cons]
    have hLrest : ∀ x ∈ rest, 0 < x.price → P x :=
      fun x hx => hL x (List.mem_cons_of_mem _ hx)
    by_cases hp : l.price ≤ 0
    · rw [show partStep acc l = acc from by simp [partStep, hp]]
      exact ih acc hLrest h1 h2
    · have hpos : 0 < l.price := lt_of_not_ge hp
      have hPl : P l := hL l (List.mem_cons_self _ _) hpos
      cases hk : grouping_key l with
      | some k =>
        rw [show partStep acc l = (insertBucket k l acc.1, acc.2) from by
          simp [partStep, hp, hk]]
        exact ih _ hLrest
          (insertBucket_inv (fun x => P x ∧ 0 < x.price) h1 ⟨hPl, hpos⟩) h2
      | none =>
        rw [show partStep acc l = (acc.1, acc.2 ++ [l]) from by simp [partStep, hp, hk]]
        refine ih _ hLrest h1 (fun x hx => ?_)
        rcases List.mem_append.mp hx with hx1 | hx1
        · exact h2 x hx1
        · rw [List.mem_singleton.mp hx1]; exact ⟨hPl, hpos⟩

/-- The order, minimum and maximum facts shared by every offers list that is
sorted by total cost. -/
lemma offers_facts (offers : List Offer) (hs : List.Sorted offerLe offers)
    (hne : offers ≠ []) :
    List.Chain' (fun a b : Offer => a.total_cost ≤ b.total_cost) offers
    ∧ (∀ o, offers.head? = some o → pyMinQ (offers.map (·.total_cost)) = o.total_cost)
    ∧ (∀ o ∈ offers, pyMinQ (offers.map (·.total_cost)) ≤ o.total_cost)
    ∧ (∃ o ∈ offers, o.total_cost = pyMinQ (offers.map (·.total_cost)))
    ∧ (∀ o ∈ offers, o.total_cost ≤ pyMaxQ (offers.map (·.total_cost)))
    ∧ (∃ o ∈ offers, o.total_cost = pyMaxQ (offers.map (·.total_cost))) := by
  have hmemlo : ∀ o ∈ offers, pyMinQ (offers.map (·.total_cost)) ≤ o.total_cost :=
    fun o ho => pyMinQ_le (List.mem_map_of_mem _ ho)
  have hmemhi : ∀ o ∈ offers, o.total_cost ≤ pyMaxQ (offers.map (·.total_cost)) :=
    fun o ho => pyMaxQ_ge (List.mem_map_of_mem _ ho)
  have hnem : offers.map (·.total_cost) ≠ [] := by
    cases offers with
    | nil => exact absurd rfl hne
    | cons a t => simp
  have hlomem : ∃ o ∈ offers, o.total_cost = pyMinQ (offers.map (·.total_cost)) := by
    obtain ⟨o, ho, heq⟩ := List.mem_map.mp (pyMinQ_mem hnem)
    exact ⟨o, ho, heq⟩
  have hhimem : ∃ o ∈ offers, o.total_cost = pyMaxQ (offers.map (·.total_cost)) := by
    obtain ⟨o, ho, heq⟩ := List.mem_map.mp (pyMaxQ_mem hnem)
    exact ⟨o, ho, heq⟩
  refine ⟨hs.chain'.imp (fun a b h => h), fun o ho => ?_, hmemlo, hlomem, hmemhi, hhimem⟩
  cases offers with
  | nil => simp at ho
  | cons a t =>
    rw [List.head?_cons, Option.some_inj] at ho
    subst ho
    have hle : pyMinQ ((a :: t).map (·.total_cost)) ≤ a.total_cost :=
      hmemlo a (List.mem_cons_self _ _)
    obtain ⟨o2, ho2, heq⟩ := hlomem
    have hfirst : a.total_cost ≤ o2.total_cost := by
      rcases List.mem_cons.mp ho2 with rfl | ho2t
      · exact le_refl _
      · exact (List.pairwise_cons.mp hs).1 o2 ho2t
    exact le_antisymm hle (heq ▸ hfirst)

/-- **C4.** In every group produced by `group_listings`, the offers are
non-empty and sorted ascending by `total_cost`; `best_price` equals the
first offer's total cost and is the minimum total cost over the offers; and
`price_range.low` / `price_range.high` are the minimum and maximum total
cost over the offers. -/
theorem C4_theorem :
    ∀ (gbp : GBP) (L : List MarketListing) (g : ListingGroup),
      g ∈ group_listings gbp L →
        g.offers ≠ []
        ∧ List.Chain' (fun a b : Offer => a.total_cost ≤ b.total_cost) g.offers
        ∧ (∀ o, g.offers.head? = some o → g.best_price = o.total_cost)
        ∧ (∀ o ∈ g.offers, g.best_price ≤ o.total_cost)
        ∧ (∃ o ∈ g.offers, o.total_cost = g.best_price)
        ∧ g.price_range.low = g.best_price
        ∧ (∀ o ∈ g.offers, o.total_cost ≤ g.price_range.high)
        ∧ (∃ o ∈ g.offers, o.total_cost = g.price_range.high) := by
  intro gbp L g hg
  unfold group_listings at hg
  rw [List.mem_insertionSort] at hg
  rcases List.mem_append.mp hg with h | h
  · obtain ⟨b, hb, rfl⟩ := List.mem_map.mp h
    have hne : b.2 ≠ [] :=
      ((partitionFold_inv (fun _ => True) L ([], []) (by simp) (by simp) (by simp)).1
        b hb).1
    obtain ⟨rep, rest, hbeq⟩ : ∃ rep rest, b.2 = rep :: rest := by
      cases hb2 : b.2 with
      | nil => exact absurd hb2 hne
      | cons a t => exact ⟨a, t, rfl⟩
    rw [hbeq]
    have hsort : List.Sorted offerLe
        (((rep :: rest).map (mkOffer gbp)).insertionSort offerLe) :=
      List.sorted_insertionSort offerLe _
    have hnonempty : ((rep :: rest).map (mkOffer gbp)).insertionSort offerLe ≠ [] := by
      have : (((rep :: rest).map (mkOffer gbp)).insertionSort offerLe).length
          = rest.length + 1 := by
        rw [List.length_insertionSort, List.length_map, List.length_cons]
      intro hnil
      rw [hnil] at this
      simp at this
    have hfacts := offers_facts _ hsort hnonempty
    simp only [mkGroupFromBucket]
    exact ⟨hnonempty, hfacts.1, hfacts.2.1, hfacts.2.2.1, hfacts.2.2.2.1, trivial,
      hfacts.2.2.2.2.1, hfacts.2.2.2.2.2⟩
  · obtain ⟨l, hl, rfl⟩ := List.mem_map.mp h
    simp only [mkSingletonGroup]
    refine ⟨by simp, by simp, ?_, ?_, ?_, trivial, ?_, ?_⟩
    · intro o ho
      rw [List.head?_cons, Option.some_inj] at ho
      subst ho
      rfl
    · intro o ho
      rw [List.mem_singleton.mp ho]
      exact le_refl _
    · exact ⟨mkOffer gbp l, List.mem_singleton.mpr rfl, rfl⟩
    · intro o ho
      rw [List.mem_singleton.mp ho]
      exact le_refl _
    · exact ⟨mkOffer gbp l, List.mem_singleton.mpr rfl, rfl⟩

/-! ### Rounding facts -/

lemma roundHalfEven_intCast (n : ℤ) : roundHalfEven ((n : ℚ)) = n := by
  unfold roundHalfEven
  rw [Int.floor_intCast]
  norm_num

lemma round2_eq_int {x : ℚ} {n : ℤ} (h : x = (n : ℚ)) : round2 x = n := by
  unfold round2
  rw [h, show ((n : ℚ) * 100) = (((n * 100 : ℤ)) : ℚ) by push_cast; ring,
    roundHalfEven_intCast]
  push_cast
  field_simp

lemma roundHalfEven_one_le {y : ℚ} (h : 1/2 < y) : 1 ≤ roundHalfEven y := by
  unfold roundHalfEven
  have hfl : ((⌊y⌋ : ℚ)) ≤ y := Int.floor_le y
  have hfh : y < (⌊y⌋ : ℚ) + 1 := Int.lt_floor_add_one y
  dsimp only
  split_ifs with h1 h2 h3
  · -- the fractional part is below 1/2, so the floor is positive
    have h0 : (0 : ℚ) < (⌊y⌋ : ℚ) := by linarith
    have hz : (0 : ℤ) < ⌊y⌋ := by exact_mod_cast h0
    omega
  · -- result ⌊y⌋ + 1 with 1/2 < y - ⌊y⌋; ⌊y⌋ ≥ 0 since y > 0
    have h0 : (0 : ℚ) ≤ (⌊y⌋ : ℚ) := by
      have := Int.floor_nonneg.mpr (le_of_lt (lt_trans (by norm_num) h))
      exact_mod_cast this
    have : (0 : ℤ) ≤ ⌊y⌋ := by exact_mod_cast h0
    omega
  · -- tie with even floor: y = ⌊y⌋ + 1/2 > 1/2 gives a positive floor
    have hr : y - (⌊y⌋ : ℚ) = 1/2 := le_antisymm (not_lt.mp h2) (not_lt.mp h1)
    have h0 : (0 : ℚ) < (⌊y⌋ : ℚ) := by linarith
    have hz : (0 : ℤ) < ⌊y⌋ := by exact_mod_cast h0
    omega
  · have hr : y - (⌊y⌋ : ℚ) = 1/2 := le_antisymm (not_lt.mp h2) (not_lt.mp h1)
    have h0 : (0 : ℚ) < (⌊y⌋ : ℚ) := by linarith
    have hz : (0 : ℤ) < ⌊y⌋ := by exact_mod_cast h0
    omega

lemma round3_pos {t : ℚ} (h0 : 0 < t) (h1 : t < 100000) : 0 < round3 (50 / t) := by
  have hy : 1/2 < 50 / t * 1000 := by
    rw [div_mul_eq_mul_div, lt_div_iff₀ h0]
    nlinarith
  have h2 := roundHalfEven_one_le hy
  unfold round3
  have : (1 : ℚ) ≤ ((roundHalfEven (50 / t * 1000) : ℤ) : ℚ) := by exact_mod_cast h2
  linarith [this]

lemma total_cost_pos {l : MarketListing} (h : 0 < l.price) : 0 < total_cost l := by
  unfold total_cost
  cases hs : l.shipping_cost with
  | none => simpa using h
  | some s =>
    by_cases h2 : 0 < s
    · simp only [h2, if_pos]
      linarith
    · simp only [h2, if_neg, not_false_iff]
      simpa using h

/-! ### Evaluating `group_listings` on small concrete inputs -/

lemma partStep_keyed {acc : List (String × List MarketListing) × List MarketListing}
    {l : MarketListing} {k : String} (hp : ¬ l.price ≤ 0) (hk : grouping_key l = some k) :
    partStep acc l = (insertBucket k l acc.1, acc.2) := by
  simp [partStep, hp, hk]

lemma partStep_unkeyed {acc : List (String × List MarketListing) × List MarketListing}
    {l : MarketListing} (hp : ¬ l.price ≤ 0) (hk : grouping_key l = none) :
    partStep acc l = (acc.1, acc.2 ++ [l]) := by
  simp [partStep, hp, hk]

lemma group_listings_pair_keyed (gbp : GBP) {l1 l2 : MarketListing} {k : String}
    (hp1 : ¬ l1.price ≤ 0) (hp2 : ¬ l2.price ≤ 0)
    (hk1 : grouping_key l1 = some k) (hk2 : grouping_key l2 = some k) :
    group_listings gbp [l1, l2] = [mkGroupFromBucket gbp [l1, l2]] := by
  unfold group_listings partitionGroups
  rw [List.foldl_cons, partStep_keyed hp1 hk1, List.foldl_cons,
    partStep_keyed hp2 hk2, List.foldl_nil]
  simp [insertBucket, List.insertionSort, List.orderedInsert]

lemma group_listings_single_keyed (gbp : GBP) {l : MarketListing} {k : String}
    (hp : ¬ l.price ≤ 0) (hk : grouping_key l = some k) :
    group_listings gbp [l] = [mkGroupFromBucket gbp [l]] := by
  unfold group_listings partitionGroups
  rw [List.foldl_cons, partStep_keyed hp hk, List.foldl_nil]
  simp [insertBucket, List.insertionSort, List.orderedInsert]

lemma group_listings_single_unkeyed (gbp : GBP) {l : MarketListing}
    (hp : ¬ l.price ≤ 0) (hk : grouping_key l = none) :
    group_listings gbp [l] = [mkSingletonGroup gbp l] := by
  unfold group_listings partitionGroups
  rw [List.foldl_cons, partStep_unkeyed hp hk, List.foldl_nil]
  simp [hp, List.insertionSort, List.orderedInsert]

/-- **C7.** Grouping the two Bosch BP1 listings (price 30 + shipping 5,
price 32 + shipping 0) yields exactly one group with `offer_count = 2`,
`best_price = 32`, `price_range = {low: 32, high: 35}`, offers' total
costs `[32, 35]`; and in general `total_cost = price + max(shipping, 0)`.
Proved for an arbitrary brand-profile lookup. -/
theorem C7_theorem :
    ∀ gbp : GBP,
      (∃ g, group_listings gbp [bosch1, bosch2] = [g]
        ∧ g.offer_count = 2
        ∧ g.best_price = 32
        ∧ g.price_range = ⟨32, 35⟩
        ∧ g.offers.map (·.total_cost) = [32, 35])
      ∧ (∀ l : MarketListing,
          total_cost l = l.price + max ((l.shipping_cost.getD 0)) 0) := by
  intro gbp
  constructor
  · have ht1 : total_cost bosch1 = 35 := by
      unfold total_cost bosch1
      norm_num
    have ht2 : total_cost bosch2 = 32 := by
      unfold total_cost bosch2
      norm_num
    have htc1 : (mkOffer gbp bosch1).total_cost = 35 := by
      show round2 (total_cost bosch1) = 35
      rw [ht1]
      exact round2_eq_int (by norm_num)
    have htc2 : (mkOffer gbp bosch2).total_cost = 32 := by
      show round2 (total_cost bosch2) = 32
      rw [ht2]
      exact round2_eq_int (by norm_num)
    have heval := group_listings_pair_keyed gbp
      (show ¬ bosch1.price ≤ 0 by unfold bosch1; norm_num)
      (show ¬ bosch2.price ≤ 0 by unfold bosch2; norm_num)
      (show grouping_key bosch1 = some ("BOSCH:BP1") from by decide)
      (show grouping_key bosch2 = some ("BOSCH:BP1") from by decide)
    refine ⟨mkGroupFromBucket gbp [bosch1, bosch2], heval, ?_, ?_, ?_, ?_⟩
    all_goals
      have hoffers : (mkGroupFromBucket gbp [bosch1, bosch2]).offers
          = [mkOffer gbp bosch2, mkOffer gbp bosch1] := by
        show ([bosch1, bosch2].map (mkOffer gbp)).insertionSort offerLe = _
        simp only [List.map_cons, List.map_nil, List.insertionSort, List.orderedInsert]
        rw [if_neg (show ¬ offerLe (mkOffer gbp bosch1) (mkOffer gbp bosch2) by
          unfold offerLe; rw [htc1, htc2]; norm_num)]
    · -- offer_count
      show ((([bosch1, bosch2].map (mkOffer gbp)).insertionSort offerLe)).length = 2
      rw [show (([bosch1, bosch2].map (mkOffer gbp)).insertionSort offerLe)
          = (mkGroupFromBucket gbp [bosch1, bosch2]).offers from rfl, hoffers]
      rfl
    · -- best_price
      show pyMinQ ((((([bosch1, bosch2].map (mkOffer gbp)).insertionSort offerLe))).map
        (·.total_cost)) = 32
      rw [show (([bosch1, bosch2].map (mkOffer gbp)).insertionSort offerLe)
          = (mkGroupFromBucket gbp [bosch1, bosch2]).offers from rfl, hoffers]
      simp only [List.map_cons, List.map_nil, htc1, htc2, pyMinQ, List.foldl_cons,
        List.foldl_nil]
      norm_num
    · -- price_range
      show PriceRange.mk
          (pyMinQ ((((([bosch1, bosch2].map (mkOffer gbp)).insertionSort offerLe))).map
            (·.total_cost)))
          (pyMaxQ ((((([bosch1, bosch2].map (mkOffer gbp)).insertionSort offerLe))).map
            (·.total_cost))) = ⟨32, 35⟩
      rw [show (([bosch1, bosch2].map (mkOffer gbp)).insertionSort offerLe)
          = (mkGroupFromBucket gbp [bosch1, bosch2]).offers from rfl, hoffers]
      simp only [List.map_cons, List.map_nil, htc1, htc2, pyMinQ, pyMaxQ,
        List.foldl_cons, List.foldl_nil]
      norm_num
    · -- offers' total costs
      rw [hoffers]
      simp [htc1, htc2]
  · intro l
    unfold total_cost
    cases hs : l.shipping_cost with
    | none => simp
    | some s =>
      by_cases h2 : 0 < s
      · simp [h2, max_eq_left (le_of_lt h2)]
      · simp [if_neg h2, max_eq_right (not_lt.mp h2)]

/-- Witness for `C4_theorem` at the concrete two-listing Bosch input. -/
theorem C4_witness :
    (mkGroupFromBucket noProfiles [bosch1, bosch2]).offers ≠ []
    ∧ List.Chain' (fun a b : Offer => a.total_cost ≤ b.total_cost)
        (mkGroupFromBucket noProfiles [bosch1, bosch2]).offers
    ∧ (mkGroupFromBucket noProfiles [bosch1, bosch2]).price_range.low
        = (mkGroupFromBucket noProfiles [bosch1, bosch2]).best_price := by
  have hmem : mkGroupFromBucket noProfiles [bosch1, bosch2]
      ∈ group_listings noProfiles [bosch1, bosch2] := by
    rw [group_listings_pair_keyed noProfiles
      (show ¬ bosch1.price ≤ 0 by unfold bosch1; norm_num)
      (show ¬ bosch2.price ≤ 0 by unfold bosch2; norm_num)
      (show grouping_key bosch1 = some ("BOSCH:BP1") from by decide)
      (show grouping_key bosch2 = some ("BOSCH:BP1") from by decide)]
    exact List.mem_singleton.mpr rfl
  have h := C4_theorem noProfiles [bosch1, bosch2] _ hmem
  exact ⟨h.1, h.2.1, h.2.2.2.2.2.1⟩

/-- The offer's rounded value score, when the listing's brand has no
profile: the default quality 5.0 gives `50 / total_cost`, rounded to three
decimals. -/
lemma mkOffer_value {gbp : GBP} {l : MarketListing}
    (hnone : brandProfileOf gbp l.brand = none) (hpos : 0 < l.price) :
    (mkOffer gbp l).value_score = round3 (50 / total_cost l) := by
  show round3 (value_score gbp l) = round3 (50 / total_cost l)
  unfold value_score
  rw [hnone, if_neg (not_le.mpr (total_cost_pos hpos))]
  norm_num

/-- The C10 facts for one keyed bucket whose members' brands all lack a
profile. -/
lemma mkGroup_c10 (gbp : GBP) (rep : MarketListing) (rest : List MarketListing)
    (hnone : ∀ l ∈ rep :: rest, brandProfileOf gbp l.brand = none)
    (hpos : ∀ l ∈ rep :: rest, 0 < l.price) :
    (mkGroupFromBucket gbp (rep :: rest)).tier = "unknown"
    ∧ (mkGroupFromBucket gbp (rep :: rest)).quality_score = 0
    ∧ (∀ o ∈ (mkGroupFromBucket gbp (rep :: rest)).offers,
        ∃ l ∈ rep :: rest, 0 < l.price ∧ o = mkOffer gbp l
          ∧ o.value_score = round3 (50 / total_cost l))
    ∧ (∀ o ∈ (mkGroupFromBucket gbp (rep :: rest)).offers,
        o.value_score ≤ (mkGroupFromBucket gbp (rep :: rest)).best_value_score) := by
  have hrep := hnone rep (List.mem_cons_self _ _)
  refine ⟨?_, ?_, ?_, ?_⟩
  · show (match brandProfileOf gbp rep.brand with
      | some p => p.tier | none => "unknown") = "unknown"
    rw [hrep]
  · show ((match brandProfileOf gbp rep.brand with
      | some p => p.quality_score | none => 0) : ℚ) = 0
    rw [hrep]
  · intro o ho
    have ho2 : o ∈ ((rep :: rest).map (mkOffer gbp)).insertionSort offerLe := ho
    rw [List.mem_insertionSort] at ho2
    obtain ⟨l, hl, rfl⟩ := List.mem_map.mp ho2
    exact ⟨l, hl, hpos l hl, rfl, mkOffer_value (hnone l hl) (hpos l hl)⟩
  · intro o ho
    show o.value_score ≤ pyMaxQ ((((rep :: rest).map (mkOffer gbp)).insertionSort
      offerLe).map (·.value_score))
    exact pyMaxQ_ge (List.mem_map_of_mem _ ho)

/-- **C10 (amended).** For every group produced by `group_listings` from
listings whose brands have no profile in the lookup, the group reports tier
"unknown" and quality_score 0.0, while each offer's value score is computed
with the default quality 5.0 — `value_score = round(50 / total_cost, 3)`;
consequently, whenever some offer's (unrounded) total cost is positive and
below 100000, `best_value_score` is positive and therefore differs from the
reported `quality_score * 10 / best_price = 0`. -/
theorem C10_theorem :
    ∀ (gbp : GBP) (L : List MarketListing),
      (∀ l ∈ L, brandProfileOf gbp l.brand = none) →
      ∀ g ∈ group_listings gbp L,
        g.tier = "unknown"
        ∧ g.quality_score = 0
        ∧ (∀ o ∈ g.offers, ∃ l ∈ L, 0 < l.price ∧ o = mkOffer gbp l
            ∧ o.value_score = round3 (50 / total_cost l))
        ∧ ((∃ l ∈ L, mkOffer gbp l ∈ g.offers ∧ total_cost l < 100000) →
            g.best_value_score ≠ g.quality_score * 10 / g.best_price) := by
  intro gbp L hnoneL g hg
  unfold group_listings at hg
  rw [List.mem_insertionSort] at hg
  have hinv := partitionFold_inv
    (fun l => l ∈ L ∧ brandProfileOf gbp l.brand = none) L ([], [])
    (fun l hl _ => ⟨hl, hnoneL l hl⟩) (by simp) (by simp)
  rcases List.mem_append.mp hg with h | h
  · obtain ⟨b, hb, rfl⟩ := List.mem_map.mp h
    have hbinv := hinv.1 b hb
    obtain ⟨rep, rest, hbeq⟩ : ∃ rep rest, b.2 = rep :: rest := by
      cases hb2 : b.2 with
      | nil => exact absurd hb2 hbinv.1
      | cons a t => exact ⟨a, t, rfl⟩
    rw [hbeq]
    rw [hbeq] at hbinv
    have hmg := mkGroup_c10 gbp rep rest
      (fun l hl => (hbinv.2 l hl).1.2) (fun l hl => (hbinv.2 l hl).2)
    refine ⟨hmg.1, hmg.2.1, fun o ho => ?_, ?_⟩
    · obtain ⟨l, hl, hp, rfl, hv⟩ := hmg.2.2.1 o ho
      exact ⟨l, (hbinv.2 l hl).1.1, hp, rfl, hv⟩
    · rintro ⟨l, hlL, hoff, hlt⟩
      obtain ⟨l2, hl2, hp2, heq, hv2⟩ := hmg.2.2.1 (mkOffer gbp l) hoff
      have hpl : 0 < l.price := by
        have hpr : l.price = l2.price := congrArg Offer.price heq
        rw [hpr]; exact hp2
      have hvl : (mkOffer gbp l).value_score = round3 (50 / total_cost l) :=
        mkOffer_value (hnoneL l hlL) hpl
      have hge := hmg.2.2.2 (mkOffer gbp l) hoff
      have hpos3 : 0 < (mkOffer gbp l).value_score := by
        rw [hvl]; exact round3_pos (total_cost_pos hpl) hlt
      have hbig : 0 < (mkGroupFromBucket gbp (rep :: rest)).best_value_score :=
        lt_of_lt_of_le hpos3 hge
      rw [hmg.2.1]
      have hz : (0 : ℚ) * 10 / (mkGroupFromBucket gbp (rep :: rest)).best_price = 0 := by
        norm_num
      rw [hz]
      exact ne_of_gt hbig
  · obtain ⟨l, hlf, rfl⟩ := List.mem_map.mp h
    have hu := hinv.2 l (List.mem_of_mem_filter hlf)
    refine ⟨?_, ?_, ?_, ?_⟩
    · show (match brandProfileOf gbp l.brand with
        | some p => p.tier | none => "unknown") = "unknown"
      rw [hu.1.2]
    · show ((match brandProfileOf gbp l.brand with
        | some p => p.quality_score | none => 0) : ℚ) = 0
      rw [hu.1.2]
    · intro o ho
      have ho2 : o ∈ [mkOffer gbp l] := ho
      rw [List.mem_singleton.mp ho2]
      exact ⟨l, hu.1.1, hu.2, rfl, mkOffer_value hu.1.2 hu.2⟩
    · rintro ⟨l3, hl3, hoff, hlt⟩
      have ho2 : mkOffer gbp l3 ∈ [mkOffer gbp l] := hoff
      have heq : mkOffer gbp l3 = mkOffer gbp l := List.mem_singleton.mp ho2
      have hpl3 : 0 < l3.price := by
        have hpr : l3.price = l.price := congrArg Offer.price heq
        rw [hpr]; exact hu.2
      have hvl : (mkOffer gbp l3).value_score = round3 (50 / total_cost l3) :=
        mkOffer_value (hnoneL l3 hl3) hpl3
      have hbest : (mkSingletonGroup gbp l).best_value_score
          = (mkOffer gbp l).value_score := rfl
      have hpos3 : 0 < (mkSingletonGroup gbp l).best_value_score := by
        rw [hbest, ← heq, hvl]
        exact round3_pos (total_cost_pos hpl3) hlt
      have hq : (mkSingletonGroup gbp l).quality_score = 0 := by
        show ((match brandProfileOf gbp l.brand with
          | some p => p.quality_score | none => 0) : ℚ) = 0
        rw [hu.1.2]
      rw [hq]
      have hz : (0 : ℚ) * 10 / (mkSingletonGroup gbp l).best_price = 0 := by norm_num
      rw [hz]
      exact ne_of_gt hpos3

/-- `round(50/1000000, 3) = 0`: the value score of a 1,000,000-total
offer rounds to zero at three decimals. -/
lemma round3_tiny : round3 ((50 : ℚ) / 1000000) = 0 := by
  unfold round3
  have hx : (50 : ℚ) / 1000000 * 1000 = 1/20 := by norm_num
  rw [hx]
  have hf : ⌊(1/20 : ℚ)⌋ = 0 := by
    rw [Int.floor_eq_zero_iff]
    constructor <;> norm_num
  unfold roundHalfEven
  dsimp only
  rw [hf]
  norm_num

/-- **C10, counterexample to the claim as stated.** For the unprofiled
listing with price 1,000,000 the stored value score `round(50/10^6, 3)`
rounds to exactly 0, so `best_value_score = 0 = quality_score * 10 /
best_price` — the claimed inequality fails. -/
theorem C10_counterexample :
    brandProfileOf noProfiles bigNoProfile.brand = none
    ∧ group_listings noProfiles [bigNoProfile]
        = [mkSingletonGroup noProfiles bigNoProfile]
    ∧ (mkSingletonGroup noProfiles bigNoProfile).quality_score = 0
    ∧ (mkSingletonGroup noProfiles bigNoProfile).best_value_score = 0
    ∧ (mkSingletonGroup noProfiles bigNoProfile).best_value_score
        = (mkSingletonGroup noProfiles bigNoProfile).quality_score * 10
          / (mkSingletonGroup noProfiles bigNoProfile).best_price := by
  have ht : total_cost bigNoProfile = 1000000 := by
    unfold total_cost bigNoProfile
    norm_num
  have hnone : brandProfileOf noProfiles bigNoProfile.brand = none := by decide
  have hvs : (mkSingletonGroup noProfiles bigNoProfile).best_value_score = 0 := by
    show round3 (value_score noProfiles bigNoProfile) = 0
    unfold value_score
    rw [hnone, if_neg (not_le.mpr (by rw [ht]; norm_num))]
    rw [show (5 : ℚ) * 10 / total_cost bigNoProfile = 50 / 1000000 by rw [ht]; norm_num]
    exact round3_tiny
  have hq : (mkSingletonGroup noProfiles bigNoProfile).quality_score = 0 := by
    show ((match brandProfileOf noProfiles bigNoProfile.brand with
      | some p => p.quality_score | none => 0) : ℚ) = 0
    rw [hnone]
  refine ⟨hnone, ?_, hq, hvs, ?_⟩
  · exact group_listings_single_unkeyed noProfiles
      (show ¬ bigNoProfile.price ≤ 0 by unfold bigNoProfile; norm_num)
      (by decide)
  · rw [hvs, hq]; norm_num

/-- Witness for `C10_theorem`: the ordinary unprofiled listing with price
100 — the group reports tier "unknown", quality 0, and its best value
score (0.5) differs from `quality * 10 / best_price = 0`. -/
theorem C10_witness :
    (mkSingletonGroup noProfiles smallNoProfile).tier = "unknown"
    ∧ (mkSingletonGroup noProfiles smallNoProfile).quality_score = 0
    ∧ (mkSingletonGroup noProfiles smallNoProfile).best_value_score
        ≠ (mkSingletonGroup noProfiles smallNoProfile).quality_score * 10
          / (mkSingletonGroup noProfiles smallNoProfile).best_price := by
  have hmem : mkSingletonGroup noProfiles smallNoProfile
      ∈ group_listings noProfiles [smallNoProfile] := by
    rw [group_listings_single_unkeyed noProfiles
      (show ¬ smallNoProfile.price ≤ 0 by unfold smallNoProfile; norm_num)
      (by decide)]
    exact List.mem_singleton.mpr rfl
  have h := C10_theorem noProfiles [smallNoProfile]
    (by intro l hl; rw [List.mem_singleton.mp hl]; decide)
    _ hmem
  refine ⟨h.1, h.2.1, h.2.2.2 ⟨smallNoProfile, List.mem_singleton.mpr rfl, ?_, ?_⟩⟩
  · show mkOffer noProfiles smallNoProfile ∈ [mkOffer noProfiles smallNoProfile]
    exact List.mem_singleton.mpr rfl
  · unfold total_cost smallNoProfile
    norm_num

lemma descBonus_some (t d : String) :
    descBonus t (some d) =
      if d.isEmpty then 0
      else if containsSub t.data (pyUpper d).data then 8
      else
        if 0 < List.countP (fun w => containsSub t.data w) (pySplit (pyUpper d).data)
        then 4 * ((List.countP (fun w => containsSub t.data w)
            (pySplit (pyUpper d).data) : ℚ)) / ((pySplit (pyUpper d).data).length : ℚ)
        else 0 := rfl

/-- The part-description bonus is the only term of `_relevance_score` that
changes when `part_description` is cleared, so the bonus is exactly the
score difference. -/
lemma relevance_score_desc_diff (gbp : GBP) (l : MarketListing) (q : String)
    (a : QueryAnalysis) (d : String) (h : a.part_description = some d) :
    relevance_score gbp l q (some a)
      - relevance_score gbp l q (some { a with part_description := none })
      = descBonus (pyUpper l.title) (some d) := by
  obtain ⟨qt, oq, pns, vh, pd, xr, bf, eq⟩ := a
  simp only at h
  subst h
  simp only [relevance_score]
  simp only [show ∀ t : String, descBonus t none = (0 : ℚ) from fun t => rfl]
  ring

/-- **C6 (amended).** With a part description present, the
part-description contribution to `_relevance_score` is: +8 exactly when
the (uppercased) description occurs verbatim as a substring of the title;
otherwise 4 × the fraction of description words found in the title (0 if
none match) — hence at most +4 from word overlap alone, and at most +8
overall. -/
theorem C6_theorem :
    ∀ (gbp : GBP) (l : MarketListing) (q : String) (a : QueryAnalysis) (d : String),
      a.part_description = some d →
      (relevance_score gbp l q (some a)
          - relevance_score gbp l q (some { a with part_description := none })
        = descBonus (pyUpper l.title) (some d))
      ∧ (d.isEmpty = false →
          containsSub (pyUpper l.title).data (pyUpper d).data = true →
          descBonus (pyUpper l.title) (some d) = 8)
      ∧ (containsSub (pyUpper l.title).data (pyUpper d).data = false →
          descBonus (pyUpper l.title) (some d) ≤ 4)
      ∧ descBonus (pyUpper l.title) (some d) ≤ 8 := by
  intro gbp l q a d h
  have hle4 : containsSub (pyUpper l.title).data (pyUpper d).data = false →
      descBonus (pyUpper l.title) (some d) ≤ 4 := by
    intro hc
    rw [descBonus_some]
    split_ifs with h1 h2 h3
    · norm_num
    · rw [hc] at h2; cases h2
    · have hml : List.countP
          (fun w => containsSub (pyUpper l.title).data w)
          (pySplit (pyUpper d).data)
          ≤ (pySplit (pyUpper d).data).length := List.countP_le_length _
      have hlen : (0 : ℚ) < ((pySplit (pyUpper d).data).length : ℚ) := by
        have : 0 < (pySplit (pyUpper d).data).length := lt_of_lt_of_le h3 hml
        exact_mod_cast this
      rw [div_le_iff₀ hlen]
      have hmlq : ((List.countP (fun w => containsSub (pyUpper l.title).data w)
          (pySplit (pyUpper d).data)) : ℚ)
          ≤ ((pySplit (pyUpper d).data).length : ℚ) := by exact_mod_cast hml
      nlinarith
    · norm_num
  refine ⟨relevance_score_desc_diff gbp l q a d h, ?_, hle4, ?_⟩
  · intro h1 h2
    rw [descBonus_some, if_neg (by simp [h1]), if_pos h2]
  · by_cases hc : containsSub (pyUpper l.title).data (pyUpper d).data = true
    · rw [descBonus_some]
      by_cases h1 : d.isEmpty
      · rw [if_pos h1]; norm_num
      · rw [if_neg h1, if_pos hc]
    · have := hle4 (by simpa using hc)
      linarith

/-- **C6, counterexample to the claim as stated.** The title "PAD BRAKE"
contains every word of the description "BRAKE PAD", yet the bonus is +4
(word overlap), not +8 — the +8 case requires the description verbatim. -/
theorem C6_counterexample :
    ((pySplit (pyUpper ("BRAKE PAD")).data).all
        (fun w => containsSub (pyUpper ("PAD BRAKE")).data w) = true)
    ∧ (relevance_score noProfiles cexC6Listing ("Q") (some cexC6Analysis)
        - relevance_score noProfiles cexC6Listing ("Q")
            (some { cexC6Analysis with part_description := none }) = 4)
    ∧ ((4 : ℚ) ≠ 8) := by
  refine ⟨by decide, ?_, by norm_num⟩
  rw [relevance_score_desc_diff noProfiles cexC6Listing ("Q") cexC6Analysis
    ("BRAKE PAD") rfl]
  have hc : containsSub (pyUpper cexC6Listing.title).data
      (pyUpper ("BRAKE PAD")).data = false := by decide
  rw [descBonus_some, if_neg (by decide), if_neg (by rw [hc]; exact Bool.false_ne_true)]
  rw [show List.countP
      (fun w => containsSub (pyUpper cexC6Listing.title).data w)
      (pySplit (pyUpper ("BRAKE PAD")).data) = 2 from by decide]
  rw [show (pySplit (pyUpper ("BRAKE PAD")).data).length = 2 from by decide]
  norm_num

/-- Witness for `C6_theorem` at the concrete listing and analysis of the
counterexample. -/
theorem C6_witness :
    (relevance_score noProfiles cexC6Listing ("Q") (some cexC6Analysis)
        - relevance_score noProfiles cexC6Listing ("Q")
            (some { cexC6Analysis with part_description := none })
      = descBonus (pyUpper cexC6Listing.title) (some ("BRAKE PAD")))
    ∧ descBonus (pyUpper cexC6Listing.title) (some ("BRAKE PAD")) ≤ 4
    ∧ descBonus (pyUpper cexC6Listing.title) (some ("BRAKE PAD")) ≤ 8 := by
  have h := C6_theorem noProfiles cexC6Listing ("Q") cexC6Analysis ("BRAKE PAD") rfl
  exact ⟨h.1, h.2.2.1 (by decide), h.2.2.2⟩

end PartLogic
